/-
Verification of the buffer, codec, client and connection-configuration
layers of the edg-edb-javascript client library.

Conventions of the shallow embedding:
  * Node `Buffer` values are modelled as `List Nat` of byte values.
  * JavaScript numbers holding protocol integers are modelled as `Nat`
    or `Int`; big-endian encode/decode is explicit.
  * Methods that mutate `this` become functions from the state to a
    result paired with the new state.  A thrown exception becomes an
    error result that carries the state at the moment of the throw
    (JavaScript exceptions leave all mutations made so far in place).
  * Strings written to the wire are modelled by their byte lists; the
    strings appearing in the claims are ASCII, for which the byte list
    is the list of character codes.
-/
import Mathlib

deriving instance DecidableEq for Except

/-! ### Big-endian byte helpers -/

/-- Byte list of a 32-bit big-endian unsigned value (digits of `n mod 2^32`). -/
def int32BEBytes (n : Nat) : List Nat :=
  [n / 2 ^ 24 % 256, n / 2 ^ 16 % 256, n / 2 ^ 8 % 256, n % 256]

/-- Byte list of a 16-bit big-endian value (digits of `n mod 2^16`). -/
def int16BEBytes (n : Nat) : List Nat :=
  [n / 2 ^ 8 % 256, n % 256]

/-- 32-bit write of an `Int` (as Node `writeInt32BE`, two's complement). -/
def int32BEBytesI (i : Int) : List Nat :=
  int32BEBytes (i % (2 ^ 32 : Int)).toNat

/-- 16-bit write of an `Int` (as Node `writeInt16BE`). -/
def int16BEBytesI (i : Int) : List Nat :=
  int16BEBytes (i % (2 ^ 16 : Int)).toNat

/-- Node `buf.readUInt16BE(i)` on a byte list (0 outside the list). -/
def readUInt16BEAt (l : List Nat) (i : Nat) : Nat :=
  l.getD i 0 * 2 ^ 8 + l.getD (i + 1) 0

/-- Node `buf.readUInt32BE(i)` on a byte list (0 outside the list). -/
def readUInt32BEAt (l : List Nat) (i : Nat) : Nat :=
  l.getD i 0 * 2 ^ 24 + l.getD (i + 1) 0 * 2 ^ 16 + l.getD (i + 2) 0 * 2 ^ 8
    + l.getD (i + 3) 0

/-- Reinterpret a 16-bit unsigned value as signed (`readInt16BE`). -/
def toInt16 (u : Nat) : Int :=
  if u % 2 ^ 16 < 2 ^ 15 then (u % 2 ^ 16 : Nat) else (u % 2 ^ 16 : Nat) - 2 ^ 16

/-- Reinterpret a 32-bit unsigned value as signed (`readInt32BE`). -/
def toInt32 (u : Nat) : Int :=
  if u % 2 ^ 32 < 2 ^ 31 then (u % 2 ^ 32 : Nat) else (u % 2 ^ 32 : Nat) - 2 ^ 32

/-- JavaScript `ToInt32` on an integral number: the source of the 32-bit
truncation performed by the `>>` and `&` operators. -/
def jsToInt32 (v : Int) : Int :=
  toInt32 (v % (2 ^ 32 : Int)).toNat

/-- Byte list of an ASCII string (model of `Buffer.from(s, "utf-8")` for the
ASCII strings appearing in the protocol and in the claims). -/
def strBytes (s : String) : List Nat :=
  s.data.map Char.toNat

/-! ### ReadMessageBuffer (src/src/buffer.ts)

The inbound ring of chunks: `src/ring` is imported by `buffer.ts` but its
source is not part of this snapshot.  Modelled from the spec: a bounded
FIFO queue of byte chunks with capacity 1024 that reports backpressure
(`full`) when the capacity is reached; modelled here as a `List` of chunks
enqueued at the back and dequeued at the front. -/

/-- Capacity of the ring of received buffers (`BUFFER_RING_CAPACITY`). -/
def BUFFER_RING_CAPACITY : Nat := 1024

/-- Modelled from the spec: the ring reports backpressure when full. -/
def ringFull (bufs : List (List Nat)) : Bool :=
  BUFFER_RING_CAPACITY ≤ bufs.length

/-- State of `ReadMessageBuffer`.  `bufs` is the ring of queued chunks,
`buf0`/`pos0`/`len0` the active chunk with its cursor, `len` the number of
unread bytes, and the four `curMessage*` fields the current-message
cursor. -/
structure ReadMessageBuffer where
  bufs : List (List Nat)
  len : Nat
  buf0 : Option (List Nat)
  pos0 : Nat
  len0 : Nat
  curMessageType : Nat
  curMessageLen : Int
  curMessageLenUnread : Int
  curMessageReady : Bool
deriving Repr, DecidableEq

/-- The freshly constructed `ReadMessageBuffer`. -/
def ReadMessageBuffer.new : ReadMessageBuffer :=
  ⟨[], 0, none, 0, 0, 0, 0, 0, false⟩

/-- Result of a method on the read buffer: either a value with the new
state, or a thrown `BufferError` message with the state at the throw. -/
inductive Res (α : Type) where
  | ok : α → ReadMessageBuffer → Res α
  | err : String → ReadMessageBuffer → Res α
deriving Repr, DecidableEq

/-- `ReadMessageBuffer.feed`: install the chunk as the active buffer when
everything fed so far has been consumed, otherwise enqueue it on the ring;
returns the backpressure flag. -/
def ReadMessageBuffer.feed (s : ReadMessageBuffer) (buf : List Nat) :
    Bool × ReadMessageBuffer :=
  if s.buf0 = none ∨ (s.pos0 = s.len0 ∧ s.bufs = []) then
    let s := { s with buf0 := some buf, len0 := buf.length, pos0 := 0,
                      len := buf.length }
    (ringFull s.bufs, s)
  else
    let s := { s with bufs := s.bufs ++ [buf], len := s.len + buf.length }
    (ringFull s.bufs, s)

/-- `ensureFirstBuf` (with `__nextBuf` inlined): dequeue the next chunk when
the active one is exhausted; throws on an empty ring or an empty chunk. -/
def ReadMessageBuffer.ensureFirstBuf (s : ReadMessageBuffer) :
    Res (List Nat) :=
  if s.pos0 = s.len0 then
    match s.bufs with
    | [] => .err "buffer overread" s
    | b :: rest =>
      let s := { s with bufs := rest, buf0 := some b, pos0 := 0,
                        len0 := b.length }
      if b.length < 1 then .err "empty buffer" s else .ok b s
  else
    match s.buf0 with
    | none => .err "empty buffer" s
    | some b => if b.length < 1 then .err "empty buffer" s else .ok b s

/-- The loop body of `__readBufferCopy`.  The source loops, dequeuing one
chunk per iteration; the `fuel` argument (instantiated with
`s.bufs.length + 1`, an upper bound on the number of iterations) makes
the recursion structural.  Each iteration runs
`buf0.copy(ret, retPos, pos0, nread)` resp. `(…, pos0, size)`; the
fourth argument of Node `Buffer.copy` is `sourceEnd`, so the bytes
copied are the regions `[pos0, nread)` resp. `[pos0, size)` — empty or
truncated whenever `pos0 > 0` — while `retPos` still advances by the
full `nread`/`size`.  The slots of the `allocUnsafe` result that are
never written hold arbitrary memory; the model fills them with 0. -/
def ReadMessageBuffer.readBufferCopy (fuel : Nat) (buf0 : List Nat)
    (size : Nat) (s : ReadMessageBuffer) (acc : List Nat) :
    Res (List Nat) :=
  match fuel with
  | 0 => .err "empty buffer" s
  | fuel + 1 =>
    if s.len0 < s.pos0 + size then
      -- `nread := s.len0 - s.pos0` slots are consumed from the active
      -- chunk, then `ensureFirstBuf` (inlined: `pos0 = len0` here)
      -- dequeues; only `[pos0, nread)` of the chunk is copied.
      match s.bufs with
      | [] => .err "buffer overread"
          { s with pos0 := s.len0, len := s.len - (s.len0 - s.pos0) }
      | b :: rest =>
        if b.length < 1 then
          .err "empty buffer"
            { s with bufs := rest, buf0 := some b, pos0 := 0,
                     len0 := b.length, len := s.len - (s.len0 - s.pos0) }
        else
          ReadMessageBuffer.readBufferCopy fuel b (size - (s.len0 - s.pos0))
            { s with bufs := rest, buf0 := some b, pos0 := 0,
                     len0 := b.length, len := s.len - (s.len0 - s.pos0) }
            (acc ++ (buf0.drop s.pos0).take (s.len0 - s.pos0 - s.pos0)
              ++ List.replicate
                ((s.len0 - s.pos0) - (s.len0 - s.pos0 - s.pos0)) 0)
    else
      .ok (acc ++ (buf0.drop s.pos0).take (size - s.pos0)
          ++ List.replicate (size - (size - s.pos0)) 0)
        { s with pos0 := s.pos0 + size, len := s.len - size }

/-- The private `_readBuffer`: slice inside the active chunk when possible,
otherwise fall back to the cross-chunk copy. -/
def ReadMessageBuffer.rawReadBuffer (s : ReadMessageBuffer) (size : Nat) :
    Res (List Nat) :=
  match s.ensureFirstBuf with
  | .err e s => .err e s
  | .ok buf0 s =>
    if size = 0 then .ok [] s
    else if s.pos0 + size < s.len0 then
      .ok ((buf0.drop s.pos0).take size)
        { s with pos0 := s.pos0 + size, len := s.len - size }
    else
      ReadMessageBuffer.readBufferCopy (s.bufs.length + 1) buf0 size s []

/-- `checkOverread`: true exactly when the read of `size` bytes must throw. -/
def ReadMessageBuffer.overreads (s : ReadMessageBuffer) (size : Nat) : Prop :=
  s.curMessageLenUnread < (size : Int) ∨ (s.len : Int) < (size : Int)

instance (s : ReadMessageBuffer) (size : Nat) : Decidable (s.overreads size) :=
  inferInstanceAs (Decidable (_ ∨ _))

/-- `readBuffer`. -/
def ReadMessageBuffer.readBuffer (s : ReadMessageBuffer) (size : Nat) :
    Res (List Nat) :=
  if s.overreads size then .err "buffer overread" s
  else
    match s.rawReadBuffer size with
    | .err e s => .err e s
    | .ok buf s =>
      .ok buf { s with curMessageLenUnread := s.curMessageLenUnread - size }

/-- `readUUID`: sixteen raw bytes (the source renders them as 32 hex
characters; we keep the bytes). -/
def ReadMessageBuffer.readUUID (s : ReadMessageBuffer) : Res (List Nat) :=
  s.readBuffer 16

/-- `readChar`. -/
def ReadMessageBuffer.readChar (s : ReadMessageBuffer) : Res Nat :=
  if s.overreads 1 then .err "buffer overread" s
  else
    match s.ensureFirstBuf with
    | .err e s => .err e s
    | .ok buf0 s =>
      .ok (buf0.getD s.pos0 0)
        { s with pos0 := s.pos0 + 1,
                 curMessageLenUnread := s.curMessageLenUnread - 1,
                 len := s.len - 1 }

/-- `readInt16`. -/
def ReadMessageBuffer.readInt16 (s : ReadMessageBuffer) : Res Int :=
  if s.overreads 2 then .err "buffer overread" s
  else
    match s.ensureFirstBuf with
    | .err e s => .err e s
    | .ok buf0 s =>
      if s.pos0 + 2 < s.len0 then
        .ok (toInt16 (readUInt16BEAt buf0 s.pos0))
          { s with pos0 := s.pos0 + 2,
                   curMessageLenUnread := s.curMessageLenUnread - 2,
                   len := s.len - 2 }
      else
        match s.rawReadBuffer 2 with
        | .err e s => .err e s
        | .ok buf s =>
          .ok (toInt16 (readUInt16BEAt buf 0))
            { s with curMessageLenUnread := s.curMessageLenUnread - 2 }

/-- `readInt32`. -/
def ReadMessageBuffer.readInt32 (s : ReadMessageBuffer) : Res Int :=
  if s.overreads 4 then .err "buffer overread" s
  else
    match s.ensureFirstBuf with
    | .err e s => .err e s
    | .ok buf0 s =>
      if s.pos0 + 4 < s.len0 then
        .ok (toInt32 (readUInt32BEAt buf0 s.pos0))
          { s with pos0 := s.pos0 + 4,
                   curMessageLenUnread := s.curMessageLenUnread - 4,
                   len := s.len - 4 }
      else
        match s.rawReadBuffer 4 with
        | .err e s => .err e s
        | .ok buf s =>
          .ok (toInt32 (readUInt32BEAt buf 0))
            { s with curMessageLenUnread := s.curMessageLenUnread - 4 }

/-- `readUInt16`. -/
def ReadMessageBuffer.readUInt16 (s : ReadMessageBuffer) : Res Nat :=
  if s.overreads 2 then .err "buffer overread" s
  else
    match s.ensureFirstBuf with
    | .err e s => .err e s
    | .ok buf0 s =>
      if s.pos0 + 2 < s.len0 then
        .ok (readUInt16BEAt buf0 s.pos0)
          { s with pos0 := s.pos0 + 2,
                   curMessageLenUnread := s.curMessageLenUnread - 2,
                   len := s.len - 2 }
      else
        match s.rawReadBuffer 2 with
        | .err e s => .err e s
        | .ok buf s =>
          .ok (readUInt16BEAt buf 0)
            { s with curMessageLenUnread := s.curMessageLenUnread - 2 }

/-- `readUInt32`. -/
def ReadMessageBuffer.readUInt32 (s : ReadMessageBuffer) : Res Nat :=
  if s.overreads 4 then .err "buffer overread" s
  else
    match s.ensureFirstBuf with
    | .err e s => .err e s
    | .ok buf0 s =>
      if s.pos0 + 4 < s.len0 then
        .ok (readUInt32BEAt buf0 s.pos0)
          { s with pos0 := s.pos0 + 4,
                   curMessageLenUnread := s.curMessageLenUnread - 4,
                   len := s.len - 4 }
      else
        match s.rawReadBuffer 4 with
        | .err e s => .err e s
        | .ok buf s =>
          .ok (readUInt32BEAt buf 0)
            { s with curMessageLenUnread := s.curMessageLenUnread - 4 }

/-- `readString`: a 32-bit length prefix followed by that many bytes (the
source decodes them as UTF-8; we return the bytes).  A negative prefix is
clamped to zero by `Int.toNat`. -/
def ReadMessageBuffer.readString (s : ReadMessageBuffer) : Res (List Nat) :=
  match s.readInt32 with
  | .err e s => .err e s
  | .ok len s => s.readBuffer len.toNat

/-- `readLenPrefixedBuffer`. -/
def ReadMessageBuffer.readLenPrefixedBuffer (s : ReadMessageBuffer) :
    Res (List Nat) :=
  match s.readInt32 with
  | .err e s => .err e s
  | .ok len s => s.readBuffer len.toNat

/-- `_finishMessage`: reset the current-message cursor. -/
def ReadMessageBuffer.finishMsg (s : ReadMessageBuffer) : ReadMessageBuffer :=
  { s with curMessageLen := 0, curMessageLenUnread := 0,
           curMessageReady := false, curMessageType := 0 }

/-- Final step of `takeMessage`: the whole frame must already be buffered. -/
def ReadMessageBuffer.takeMessageFinish (s : ReadMessageBuffer) : Res Bool :=
  if (s.len : Int) < s.curMessageLenUnread then .ok false s
  else .ok true { s with curMessageReady := true }

/-- Middle step of `takeMessage`: read the four length bytes if they have
not been read yet (`curMessageLen = 0`). -/
def ReadMessageBuffer.takeMessageReadLen (s : ReadMessageBuffer) : Res Bool :=
  if s.curMessageLen = 0 then
    if s.len < 4 then .ok false s
    else
      match s.ensureFirstBuf with
      | .err e s => .err e s
      | .ok buf0 s =>
        if s.pos0 + 4 < s.len0 then
          let v := toInt32 (readUInt32BEAt buf0 s.pos0)
          ReadMessageBuffer.takeMessageFinish
            { s with curMessageLen := v, curMessageLenUnread := v - 4,
                     pos0 := s.pos0 + 4, len := s.len - 4 }
        else
          match s.rawReadBuffer 4 with
          | .err e s => .err e s
          | .ok buf s =>
            let v := toInt32 (readUInt32BEAt buf 0)
            ReadMessageBuffer.takeMessageFinish
              { s with curMessageLen := v, curMessageLenUnread := v - 4 }
  else ReadMessageBuffer.takeMessageFinish s

/-- `takeMessage`: advance the current-message cursor as far as the buffered
bytes allow; true exactly when a whole frame is available. -/
def ReadMessageBuffer.takeMessage (s : ReadMessageBuffer) : Res Bool :=
  if s.curMessageReady then .ok true s
  else if s.curMessageType = 0 then
    if s.len < 1 then .ok false s
    else
      match s.ensureFirstBuf with
      | .err e s => .err e s
      | .ok buf0 s =>
        ReadMessageBuffer.takeMessageReadLen
          { s with curMessageType := buf0.getD s.pos0 0,
                   pos0 := s.pos0 + 1, len := s.len - 1 }
  else ReadMessageBuffer.takeMessageReadLen s

/-- `getMessageType`. -/
def ReadMessageBuffer.getMessageType (s : ReadMessageBuffer) : Nat :=
  s.curMessageType

/-- `consumeMessage`: the unread payload of the frame made ready by
`takeMessage`. -/
def ReadMessageBuffer.consumeMessage (s : ReadMessageBuffer) :
    Res (List Nat) :=
  if s.curMessageReady = false then .err "no message to consume" s
  else if 0 < s.curMessageLenUnread then
    match s.rawReadBuffer s.curMessageLenUnread.toNat with
    | .err e s => .err e s
    | .ok buf s =>
      .ok buf (ReadMessageBuffer.finishMsg
        { s with curMessageLenUnread := 0 })
  else .ok [] (ReadMessageBuffer.finishMsg s)

/-! ### The pipeline with the copy arguments corrected

`__readBufferCopy` passes `nread`/`size` — byte counts — as the fourth
argument of `Buffer.copy`, which is `sourceEnd`.  The `Patched` variants
below are the same functions with that single argument corrected; every
other line is identical.  They coincide with the real pipeline exactly
when every copy starts at `pos0 = 0`, and isolate the divergence proved
about the real one below. -/

/-- `__readBufferCopy` with the `Buffer.copy` call corrected: the fourth
argument taken as `sourceStart + length`, i.e. copying the whole regions
`[pos0, len0)` resp. `[pos0, pos0 + size)` that the surrounding
`retPos`/`len`/`pos0` arithmetic accounts for. -/
def ReadMessageBuffer.readBufferCopyPatched (fuel : Nat) (buf0 : List Nat)
    (size : Nat) (s : ReadMessageBuffer) (acc : List Nat) :
    Res (List Nat) :=
  match fuel with
  | 0 => .err "empty buffer" s
  | fuel + 1 =>
    if s.len0 < s.pos0 + size then
      match s.bufs with
      | [] => .err "buffer overread"
          { s with pos0 := s.len0, len := s.len - (s.len0 - s.pos0) }
      | b :: rest =>
        if b.length < 1 then
          .err "empty buffer"
            { s with bufs := rest, buf0 := some b, pos0 := 0,
                     len0 := b.length, len := s.len - (s.len0 - s.pos0) }
        else
          ReadMessageBuffer.readBufferCopyPatched fuel b
            (size - (s.len0 - s.pos0))
            { s with bufs := rest, buf0 := some b, pos0 := 0,
                     len0 := b.length, len := s.len - (s.len0 - s.pos0) }
            (acc ++ (buf0.drop s.pos0).take (s.len0 - s.pos0))
    else
      .ok (acc ++ (buf0.drop s.pos0).take size)
        { s with pos0 := s.pos0 + size, len := s.len - size }

/-- The private `_readBuffer`: slice inside the active chunk when possible,
otherwise fall back to the cross-chunk copy. -/
def ReadMessageBuffer.rawReadBufferPatched (s : ReadMessageBuffer) (size : Nat) :
    Res (List Nat) :=
  match s.ensureFirstBuf with
  | .err e s => .err e s
  | .ok buf0 s =>
    if size = 0 then .ok [] s
    else if s.pos0 + size < s.len0 then
      .ok ((buf0.drop s.pos0).take size)
        { s with pos0 := s.pos0 + size, len := s.len - size }
    else
      ReadMessageBuffer.readBufferCopyPatched (s.bufs.length + 1) buf0 size s []

/-- Middle step of `takeMessagePatched`: read the four length bytes if they have
not been read yet (`curMessageLen = 0`). -/
def ReadMessageBuffer.takeMessageReadLenPatched (s : ReadMessageBuffer) : Res Bool :=
  if s.curMessageLen = 0 then
    if s.len < 4 then .ok false s
    else
      match s.ensureFirstBuf with
      | .err e s => .err e s
      | .ok buf0 s =>
        if s.pos0 + 4 < s.len0 then
          let v := toInt32 (readUInt32BEAt buf0 s.pos0)
          ReadMessageBuffer.takeMessageFinish
            { s with curMessageLen := v, curMessageLenUnread := v - 4,
                     pos0 := s.pos0 + 4, len := s.len - 4 }
        else
          match s.rawReadBufferPatched 4 with
          | .err e s => .err e s
          | .ok buf s =>
            let v := toInt32 (readUInt32BEAt buf 0)
            ReadMessageBuffer.takeMessageFinish
              { s with curMessageLen := v, curMessageLenUnread := v - 4 }
  else ReadMessageBuffer.takeMessageFinish s

/-- `takeMessagePatched`: advance the current-message cursor as far as the buffered
bytes allow; true exactly when a whole frame is available. -/
def ReadMessageBuffer.takeMessagePatched (s : ReadMessageBuffer) : Res Bool :=
  if s.curMessageReady then .ok true s
  else if s.curMessageType = 0 then
    if s.len < 1 then .ok false s
    else
      match s.ensureFirstBuf with
      | .err e s => .err e s
      | .ok buf0 s =>
        ReadMessageBuffer.takeMessageReadLenPatched
          { s with curMessageType := buf0.getD s.pos0 0,
                   pos0 := s.pos0 + 1, len := s.len - 1 }
  else ReadMessageBuffer.takeMessageReadLenPatched s

/-- `consumeMessagePatched`: the unread payload of the frame made ready by
`takeMessagePatched`. -/
def ReadMessageBuffer.consumeMessagePatched (s : ReadMessageBuffer) :
    Res (List Nat) :=
  if s.curMessageReady = false then .err "no message to consume" s
  else if 0 < s.curMessageLenUnread then
    match s.rawReadBufferPatched s.curMessageLenUnread.toNat with
    | .err e s => .err e s
    | .ok buf s =>
      .ok buf (ReadMessageBuffer.finishMsg
        { s with curMessageLenUnread := 0 })
  else .ok [] (ReadMessageBuffer.finishMsg s)

/-! ### Logical frames and the feed/drain harness -/

/-- A logical protocol frame: tag byte, then the payload that follows the
four length bytes. -/
structure Frame where
  tag : Nat
  payload : List Nat
deriving Repr, DecidableEq

/-- Wire bytes of a frame: tag, 32-bit big-endian length counting itself
and the payload, then the payload. -/
def Frame.bytes (f : Frame) : List Nat :=
  f.tag :: int32BEBytes (f.payload.length + 4) ++ f.payload

/-- A frame the protocol can actually carry: a nonzero tag byte and a
length that fits in a signed 32-bit field. -/
def Frame.wellFormed (f : Frame) : Prop :=
  0 < f.tag ∧ f.tag < 256 ∧ f.payload.length + 4 < 2 ^ 31

instance (f : Frame) : Decidable f.wellFormed :=
  inferInstanceAs (Decidable (_ ∧ _))

/-- Concatenated wire bytes of a frame sequence. -/
def framesBytes (fs : List Frame) : List Nat :=
  (fs.map Frame.bytes).flatten

/-- The logical view of a frame as delivered by
`takeMessage`/`getMessageType`/`consumeMessage`. -/
def Frame.logical (f : Frame) : Nat × List Nat :=
  (f.tag, f.payload)

/-- Pull frames out of the buffer: call `takeMessage` repeatedly and, for
each ready frame, record its type and `consumeMessage` payload.  `fuel`
bounds the iterations; the callers below pass enough for all buffered
frames. -/
def drainLoop : Nat → ReadMessageBuffer → List (Nat × List Nat) →
    Res (List (Nat × List Nat))
  | 0, s, _ => .err "drain fuel exhausted" s
  | fuel + 1, s, acc =>
    match s.takeMessage with
    | .err e s => .err e s
    | .ok false s => .ok acc s
    | .ok true s =>
      let t := s.getMessageType
      match s.consumeMessage with
      | .err e s => .err e s
      | .ok payload s => drainLoop fuel s (acc ++ [(t, payload)])

/-- Feed the chunks one at a time, pulling all available frames after each
feed, and return the logical frames in order. -/
def processFeeds : List (List Nat) → ReadMessageBuffer →
    List (Nat × List Nat) → Except String (List (Nat × List Nat))
  | [], _, acc => .ok acc
  | c :: cs, s, acc =>
    let s := (s.feed c).2
    match drainLoop (s.len + 2) s acc with
    | .err e _ => .error e
    | .ok acc s => processFeeds cs s acc

/-- Feed a list of chunks into a fresh `ReadMessageBuffer` and collect the
logical frames it yields. -/
def processChunks (chunks : List (List Nat)) :
    Except String (List (Nat × List Nat)) :=
  processFeeds chunks ReadMessageBuffer.new []

/-- Pull frames out of the buffer: call `takeMessagePatched` repeatedly and, for
each ready frame, record its type and `consumeMessagePatched` payload.  `fuel`
bounds the iterations; the callers below pass enough for all buffered
frames. -/
def drainLoopPatched : Nat → ReadMessageBuffer → List (Nat × List Nat) →
    Res (List (Nat × List Nat))
  | 0, s, _ => .err "drain fuel exhausted" s
  | fuel + 1, s, acc =>
    match s.takeMessagePatched with
    | .err e s => .err e s
    | .ok false s => .ok acc s
    | .ok true s =>
      let t := s.getMessageType
      match s.consumeMessagePatched with
      | .err e s => .err e s
      | .ok payload s => drainLoopPatched fuel s (acc ++ [(t, payload)])

/-- Feed the chunks one at a time, pulling all available frames after each
feed, and return the logical frames in order. -/
def processFeedsPatched : List (List Nat) → ReadMessageBuffer →
    List (Nat × List Nat) → Except String (List (Nat × List Nat))
  | [], _, acc => .ok acc
  | c :: cs, s, acc =>
    let s := (s.feed c).2
    match drainLoopPatched (s.len + 2) s acc with
    | .err e _ => .error e
    | .ok acc s => processFeedsPatched cs s acc

/-- Feed a list of chunks into a fresh `ReadMessageBuffer` and collect the
logical frames it yields. -/
def processChunksPatched (chunks : List (List Nat)) :
    Except String (List (Nat × List Nat)) :=
  processFeedsPatched chunks ReadMessageBuffer.new []


/-! ### WriteBuffer and WriteMessageBuffer (src/src/buffer.ts)

`WriteBuffer` over-allocates its scratch `Buffer` in +4096 steps; only the
bytes below `pos` are ever observable (`unwrap` slices to `pos`), so the
model keeps exactly those bytes and `position` is their count. -/

/-- Observable state of `WriteBuffer`: the bytes written so far. -/
structure WriteBuffer where
  buffer : List Nat
deriving Repr, DecidableEq

/-- The freshly constructed (empty) write buffer. -/
def WriteBuffer.new : WriteBuffer := ⟨[]⟩

/-- `position`. -/
def WriteBuffer.position (w : WriteBuffer) : Nat := w.buffer.length

/-- `writeChar` (`writeUInt8`). -/
def WriteBuffer.writeChar (w : WriteBuffer) (ch : Nat) : WriteBuffer :=
  ⟨w.buffer ++ [ch % 256]⟩

/-- `writeInt16` (`writeInt16BE`). -/
def WriteBuffer.writeInt16 (w : WriteBuffer) (i : Int) : WriteBuffer :=
  ⟨w.buffer ++ int16BEBytesI i⟩

/-- `writeInt32` (`writeInt32BE`). -/
def WriteBuffer.writeInt32 (w : WriteBuffer) (i : Int) : WriteBuffer :=
  ⟨w.buffer ++ int32BEBytesI i⟩

/-- `writeUInt16` (`writeUInt16BE`). -/
def WriteBuffer.writeUInt16 (w : WriteBuffer) (i : Nat) : WriteBuffer :=
  ⟨w.buffer ++ int16BEBytes i⟩

/-- `writeUInt32` (`writeUInt32BE`). -/
def WriteBuffer.writeUInt32 (w : WriteBuffer) (i : Nat) : WriteBuffer :=
  ⟨w.buffer ++ int32BEBytes i⟩

/-- `writeString`: 32-bit byte length, then the UTF-8 bytes (given here
directly as a byte list). -/
def WriteBuffer.writeStringBytes (w : WriteBuffer) (bs : List Nat) :
    WriteBuffer :=
  ⟨w.buffer ++ int32BEBytesI bs.length ++ bs⟩

/-- `writeBuffer`. -/
def WriteBuffer.writeBytes (w : WriteBuffer) (bs : List Nat) : WriteBuffer :=
  ⟨w.buffer ++ bs⟩

/-- `unwrap`: the bytes below `pos`. -/
def WriteBuffer.unwrap (w : WriteBuffer) : List Nat := w.buffer

/-- Overwrite four bytes in place (`buffer.writeInt32BE(value, offset)`),
used by `endMessage` to back-patch the length field. -/
def WriteBuffer.patchInt32BE (w : WriteBuffer) (value : Int) (offset : Nat) :
    WriteBuffer :=
  ⟨w.buffer.take offset ++ int32BEBytesI value ++ w.buffer.drop (offset + 4)⟩

/-- State of `WriteMessageBuffer`: the wrapped write buffer plus the start
position of the open message (−1 when no message is open). -/
structure WriteMessageBuffer where
  buffer : WriteBuffer
  messagePos : Int
deriving Repr, DecidableEq

/-- The freshly constructed `WriteMessageBuffer`. -/
def WriteMessageBuffer.new : WriteMessageBuffer := ⟨WriteBuffer.new, -1⟩

/-- `beginMessage`: record the frame start, write the tag and a four-byte
length placeholder. -/
def WriteMessageBuffer.beginMessage (w : WriteMessageBuffer) (mtype : Nat) :
    Except String WriteMessageBuffer :=
  if 0 ≤ w.messagePos then
    .error "cannot begin a new message: the previous message is not finished"
  else
    .ok ⟨(w.buffer.writeChar mtype).writeInt32 0, (w.buffer.position : Int)⟩

/-- `endMessage`: back-patch the length field with
`position - messagePos - 1` and close the message. -/
def WriteMessageBuffer.endMessage (w : WriteMessageBuffer) :
    Except String WriteMessageBuffer :=
  if w.messagePos < 0 then
    .error "cannot end the message: no current message"
  else
    .ok ⟨w.buffer.patchInt32BE ((w.buffer.position : Int) - w.messagePos - 1)
          (w.messagePos + 1).toNat, -1⟩

/-- `writeChar` on the message buffer. -/
def WriteMessageBuffer.writeChar (w : WriteMessageBuffer) (ch : Nat) :
    Except String WriteMessageBuffer :=
  if w.messagePos < 0 then .error "cannot writeChar: no current message"
  else .ok ⟨w.buffer.writeChar ch, w.messagePos⟩

/-- `writeString` on the message buffer. -/
def WriteMessageBuffer.writeStringBytes (w : WriteMessageBuffer)
    (bs : List Nat) : Except String WriteMessageBuffer :=
  if w.messagePos < 0 then .error "cannot writeString: no current message"
  else .ok ⟨w.buffer.writeStringBytes bs, w.messagePos⟩

/-- `writeInt16` on the message buffer. -/
def WriteMessageBuffer.writeInt16 (w : WriteMessageBuffer) (i : Int) :
    Except String WriteMessageBuffer :=
  if w.messagePos < 0 then .error "cannot writeInt16: no current message"
  else .ok ⟨w.buffer.writeInt16 i, w.messagePos⟩

/-- `writeInt32` on the message buffer. -/
def WriteMessageBuffer.writeInt32 (w : WriteMessageBuffer) (i : Int) :
    Except String WriteMessageBuffer :=
  if w.messagePos < 0 then .error "cannot writeInt32: no current message"
  else .ok ⟨w.buffer.writeInt32 i, w.messagePos⟩

/-- `writeUInt16` on the message buffer. -/
def WriteMessageBuffer.writeUInt16 (w : WriteMessageBuffer) (i : Nat) :
    Except String WriteMessageBuffer :=
  if w.messagePos < 0 then .error "cannot writeInt16: no current message"
  else .ok ⟨w.buffer.writeUInt16 i, w.messagePos⟩

/-- `writeUInt32` on the message buffer. -/
def WriteMessageBuffer.writeUInt32 (w : WriteMessageBuffer) (i : Nat) :
    Except String WriteMessageBuffer :=
  if w.messagePos < 0 then .error "cannot writeInt32: no current message"
  else .ok ⟨w.buffer.writeUInt32 i, w.messagePos⟩

/-- `writeBuffer` on the message buffer. -/
def WriteMessageBuffer.writeBytes (w : WriteMessageBuffer) (bs : List Nat) :
    Except String WriteMessageBuffer :=
  if w.messagePos < 0 then .error "cannot writeBuffer: no current message"
  else .ok ⟨w.buffer.writeBytes bs, w.messagePos⟩

/-- `unwrap` on the message buffer. -/
def WriteMessageBuffer.unwrap (w : WriteMessageBuffer) :
    Except String (List Nat) :=
  if 0 ≤ w.messagePos then
    .error "cannot unwrap: an unfinished message is in the buffer"
  else .ok w.buffer.unwrap

/-- One typed write between `beginMessage` and `endMessage`. -/
inductive WOp where
  | char (c : Nat)
  | i16 (i : Int)
  | i32 (i : Int)
  | u16 (n : Nat)
  | u32 (n : Nat)
  | strB (bs : List Nat)
  | raw (bs : List Nat)
deriving Repr, DecidableEq

/-- The bytes a typed write appends to the buffer. -/
def WOp.bytes : WOp → List Nat
  | .char c => [c % 256]
  | .i16 i => int16BEBytesI i
  | .i32 i => int32BEBytesI i
  | .u16 n => int16BEBytes n
  | .u32 n => int32BEBytes n
  | .strB bs => int32BEBytesI bs.length ++ bs
  | .raw bs => bs

/-- Bytes of a sequence of typed writes. -/
def wopsBytes (ops : List WOp) : List Nat :=
  (ops.map WOp.bytes).flatten

/-- Apply one typed write to the message buffer. -/
def WriteMessageBuffer.runOp (w : WriteMessageBuffer) :
    WOp → Except String WriteMessageBuffer
  | .char c => w.writeChar c
  | .i16 i => w.writeInt16 i
  | .i32 i => w.writeInt32 i
  | .u16 n => w.writeUInt16 n
  | .u32 n => w.writeUInt32 n
  | .strB bs => w.writeStringBytes bs
  | .raw bs => w.writeBytes bs

/-- Apply a sequence of typed writes. -/
def WriteMessageBuffer.runOps (w : WriteMessageBuffer) :
    List WOp → Except String WriteMessageBuffer
  | [] => .ok w
  | op :: ops =>
    match w.runOp op with
    | .error e => .error e
    | .ok w => w.runOps ops

/-- `begin_message(tag); writes…; end_message()`. -/
def WriteMessageBuffer.buildMessage (w : WriteMessageBuffer) (tag : Nat)
    (ops : List WOp) : Except String WriteMessageBuffer :=
  match w.beginMessage tag with
  | .error e => .error e
  | .ok w =>
    match w.runOps ops with
    | .error e => .error e
    | .ok w => w.endMessage

/-! ### Flat ReadBuffer (src/src/buffer.ts, class `ReadBuffer`)

The single-chunk reader handed to codec `decode` methods (the client file
calls it `FastReadBuffer`). -/

/-- State of the flat reader: backing bytes, cursor, and end position. -/
structure ReadBuffer where
  buffer : List Nat
  pos : Nat
  len : Nat
deriving Repr, DecidableEq

/-- Construct a flat reader over a whole byte list (`ReadBuffer.init`). -/
def ReadBuffer.ofBytes (bs : List Nat) : ReadBuffer := ⟨bs, 0, bs.length⟩

/-- `discard`. -/
def ReadBuffer.discard (rb : ReadBuffer) (size : Nat) :
    Except String ReadBuffer :=
  if rb.len < rb.pos + size then .error "buffer overread"
  else .ok { rb with pos := rb.pos + size }

/-- `readInt16` on the flat reader. -/
def ReadBuffer.readInt16 (rb : ReadBuffer) : Except String (Int × ReadBuffer) :=
  if rb.len < rb.pos + 2 then .error "buffer overread"
  else .ok (toInt16 (readUInt16BEAt rb.buffer rb.pos),
            { rb with pos := rb.pos + 2 })

/-- `readInt32` on the flat reader. -/
def ReadBuffer.readInt32 (rb : ReadBuffer) : Except String (Int × ReadBuffer) :=
  if rb.len < rb.pos + 4 then .error "buffer overread"
  else .ok (toInt32 (readUInt32BEAt rb.buffer rb.pos),
            { rb with pos := rb.pos + 4 })

/-- `readUInt32` on the flat reader. -/
def ReadBuffer.readUInt32 (rb : ReadBuffer) :
    Except String (Nat × ReadBuffer) :=
  if rb.len < rb.pos + 4 then .error "buffer overread"
  else .ok (readUInt32BEAt rb.buffer rb.pos, { rb with pos := rb.pos + 4 })

/-! ### Scalar integer codecs (src/unnamed/part_003)

`encode` writes the 32-bit byte length of the value, then the value bytes;
`decode` is handed a reader narrowed to the value bytes (the caller has
already consumed the length prefix). -/

/-- `Int16Codec.encode`. -/
def Int16Codec.encode (buf : WriteBuffer) (v : Int) : WriteBuffer :=
  (buf.writeInt32 2).writeInt16 v

/-- `Int16Codec.decode`. -/
def Int16Codec.decode (rb : ReadBuffer) : Except String Int :=
  match rb.readInt16 with
  | .error e => .error e
  | .ok (v, _) => .ok v

/-- `Int32Codec.encode`. -/
def Int32Codec.encode (buf : WriteBuffer) (v : Int) : WriteBuffer :=
  (buf.writeInt32 4).writeInt32 v

/-- `Int32Codec.decode`. -/
def Int32Codec.decode (rb : ReadBuffer) : Except String Int :=
  match rb.readInt32 with
  | .error e => .error e
  | .ok (v, _) => .ok v

/-- `Int64Codec.encode`.  In JavaScript, `val >> 32` and
`val & 0xffffffff` both truncate `val` to 32 bits first (the shift count
is taken mod 32), so both halves written are `ToInt32(val)`. -/
def Int64Codec.encode (buf : WriteBuffer) (v : Int) : WriteBuffer :=
  ((buf.writeInt32 8).writeInt32 (jsToInt32 v)).writeInt32 (jsToInt32 v)

/-- `Int64Codec.decode`: 32-bit halves recombined through `BigInt`
shift-and-or; `Number(...)` is exact on the ranges used here. -/
def Int64Codec.decode (rb : ReadBuffer) : Except String Int :=
  match rb.readInt32 with
  | .error e => .error e
  | .ok (hi, rb) =>
    match rb.readInt32 with
    | .error e => .error e
    | .ok (lo, _) =>
      if hi = 0 then .ok lo else .ok (Int.lor (hi * 2 ^ 32) lo)

/-! ### Client message loop and fetchOne (src/src/client.ts) -/

/-- The server messages relevant to `execute`: Data rows (the decoded row
value abstracted as a `Nat`), CommandComplete, ErrorResponse, and
ReadyForCommand. -/
inductive ServerMsg where
  | dataRow (row : Nat)
  | commandComplete (status : String)
  | errorResponse (msg : String)
  | readyForCommand
deriving Repr, DecidableEq

/-- The receive loop of `AwaitConnection.execute`: Data rows are appended
in arrival order, an ErrorResponse is recorded and draining continues, and
ReadyForCommand ends the loop, raising the recorded error if any.  Running
out of messages models a dropped transport. -/
def executeLoop : List ServerMsg → List Nat → Option String →
    Except String (List Nat)
  | [], _, _ => .error "connection closed"
  | .dataRow r :: rest, result, err => executeLoop rest (result ++ [r]) err
  | .commandComplete _ :: rest, result, err => executeLoop rest result err
  | .errorResponse e :: rest, result, _ => executeLoop rest result (some e)
  | .readyForCommand :: _, result, err =>
    match err with
    | some e => .error e
    | none => .ok result

/-- `AwaitConnection.fetchOne`: run parse/execute and return `result[0]`
(`none` models the JavaScript `undefined` produced by indexing an empty
array). -/
def fetchOneModel (msgs : List ServerMsg) : Except String (Option Nat) :=
  match executeLoop msgs [] none with
  | .error e => .error e
  | .ok result => .ok result.head?

/-- `AwaitConnection.fetchAll`: the full (frozen) row list. -/
def fetchAllModel (msgs : List ServerMsg) : Except String (List Nat) :=
  executeLoop msgs [] none

/-- The two frames `AwaitConnection.connect` writes before reading any
server message: ClientHandshake (tag `V`, protocol 1.0, no extensions) and
AuthenticationRequest (tag `0`, user and database strings, both the
hard-coded `"edgedb"`). -/
def clientHandshakeBytes : Except String (List Nat) :=
  match WriteMessageBuffer.new.buildMessage 86
      [.i16 1, .i16 0, .i16 0] with
  | .error e => .error e
  | .ok w =>
    match w.buildMessage 48
        [.strB (strBytes "edgedb"), .strB (strBytes "edgedb")] with
    | .error e => .error e
    | .ok w => w.unwrap

/-- The logical frames of the client handshake, recovered through the
read path with the copy argument corrected (the faithful read path
corrupts any payload whose copy starts at `pos0 > 0`; see the C1
development). -/
def clientHandshakeFrames : Except String (List (Nat × List Nat)) :=
  match clientHandshakeBytes with
  | .error e => .error e
  | .ok bs => processChunksPatched [bs]

/-! ### Connection-configuration resolver (src/unnamed/part_004)

Filesystem, environment and crypto collaborators (`adapter.node`,
`credentials`, `platform`) are passed in as an explicit `ExtEnv` record.
Error-message texts follow the source with quote characters elided.
JavaScript objects used as string maps are modelled as association lists
in insertion order; a later entry for a key shadows an earlier one, which
matches object-spread semantics. -/

/-- Lookup in an association list with object-spread semantics: the last
entry for the key wins. -/
def objGet (o : List (String × String)) (k : String) : Option String :=
  o.foldl (fun acc p => if p.1 = k then some p.2 else acc) none

/-- `validateHost`. -/
def validateHost (host : String) : Except String String :=
  if host.data.contains '/' then .error "unix socket paths not supported"
  else if host.data.isEmpty ∨ host.data.contains ',' then
    .error ("invalid host: " ++ host)
  else .ok host

/-- Decimal value of a digit list (`parseInt(s, 10)` on an all-digit
string). -/
def digitsToNat (l : List Char) : Nat :=
  l.foldl (fun acc c => acc * 10 + (c.toNat - 48)) 0

/-- `parseValidatePort`: a port given as a digits-only string or as a
number; must lie in [1, 65535]. -/
def parseValidatePort : Sum String Int → Except String Nat
  | .inl port =>
    if ¬ port.data.all Char.isDigit then .error ("invalid port: " ++ port)
    else if port.data.isEmpty then .error ("invalid port: " ++ port)
    else
      let parsed := digitsToNat port.data
      if parsed < 1 ∨ 65535 < parsed then .error ("invalid port: " ++ port)
      else .ok parsed
  | .inr port =>
    if port < 1 ∨ 65535 < port then
      .error ("invalid port: " ++ toString port)
    else .ok port.toNat

/-- `parseVerifyHostname`. -/
def parseVerifyHostname (s : String) : Except String Bool :=
  let lower := String.mk (s.data.map Char.toLower)
  if lower = "true" ∨ lower = "t" ∨ lower = "yes" ∨ lower = "y" ∨
      lower = "on" ∨ lower = "1" then .ok true
  else if lower = "false" ∨ lower = "f" ∨ lower = "no" ∨ lower = "n" ∨
      lower = "off" ∨ lower = "0" then .ok false
  else .error ("invalid tls_verify_hostname value: " ++ s)

/-- Contents of a credentials file (`readCredentialsFile` result). -/
structure Credentials where
  host : Option String := none
  port : Option Int := none
  database : Option String := none
  user : Option String := none
  password : Option String := none
  tlsCAData : Option String := none
  tlsVerifyHostname : Option Bool := none
deriving Repr, DecidableEq

/-- The external collaborators of the resolver: environment variables,
file reads, credentials lookup, and the project-stash path computation
(realpath + SHA-1 + platform config dir). -/
structure ExtEnv where
  envVar : String → Option String
  fileContents : String → Except String String
  credentials : String → Except String Credentials
  credentialsPath : String → String
  stashPathOf : String → String
  pathExists : String → Bool

/-- `ResolvedConnectConfig`: each scalar field paired with the label of the
source that set it, plus the accumulated server settings. -/
structure ResolvedConnectConfig where
  _host : Option String := none
  _hostSource : Option String := none
  _port : Option Nat := none
  _portSource : Option String := none
  _database : Option String := none
  _databaseSource : Option String := none
  _user : Option String := none
  _userSource : Option String := none
  _password : Option String := none
  _passwordSource : Option String := none
  _tlsCAData : Option String := none
  _tlsCADataSource : Option String := none
  _tlsVerifyHostname : Option Bool := none
  _tlsVerifyHostnameSource : Option String := none
  serverSettings : List (String × String) := []
deriving Repr, DecidableEq

/-- The freshly constructed (fully unset) resolved config. -/
def ResolvedConnectConfig.new : ResolvedConnectConfig := {}

/-- `_setParam` for `host`.  When the field is unset the source label is
recorded even for a null value; the value itself is written (after
validation) only when non-null, and only then does the call return true. -/
def ResolvedConnectConfig.setHost (c : ResolvedConnectConfig)
    (host : Option String) (source : String) :
    Except String (Bool × ResolvedConnectConfig) :=
  match c._host with
  | some _ => .ok (false, c)
  | none =>
    let c := { c with _hostSource := some source }
    match host with
    | none => .ok (false, c)
    | some v =>
      match validateHost v with
      | .error e => .error e
      | .ok v => .ok (true, { c with _host := some v })

/-- `_setParam` for `port` (string or number input). -/
def ResolvedConnectConfig.setPort (c : ResolvedConnectConfig)
    (port : Option (Sum String Int)) (source : String) :
    Except String (Bool × ResolvedConnectConfig) :=
  match c._port with
  | some _ => .ok (false, c)
  | none =>
    let c := { c with _portSource := some source }
    match port with
    | none => .ok (false, c)
    | some v =>
      match parseValidatePort v with
      | .error e => .error e
      | .ok v => .ok (true, { c with _port := some v })

/-- `_setParam` for `database` (must be non-empty). -/
def ResolvedConnectConfig.setDatabase (c : ResolvedConnectConfig)
    (database : Option String) (source : String) :
    Except String (Bool × ResolvedConnectConfig) :=
  match c._database with
  | some _ => .ok (false, c)
  | none =>
    let c := { c with _databaseSource := some source }
    match database with
    | none => .ok (false, c)
    | some db =>
      if db = "" then .error ("invalid database name: " ++ db)
      else .ok (true, { c with _database := some db })

/-- `_setParam` for `user` (must be non-empty). -/
def ResolvedConnectConfig.setUser (c : ResolvedConnectConfig)
    (user : Option String) (source : String) :
    Except String (Bool × ResolvedConnectConfig) :=
  match c._user with
  | some _ => .ok (false, c)
  | none =>
    let c := { c with _userSource := some source }
    match user with
    | none => .ok (false, c)
    | some u =>
      if u = "" then .error ("invalid user name: " ++ u)
      else .ok (true, { c with _user := some u })

/-- `_setParam` for `password` (no validator). -/
def ResolvedConnectConfig.setPassword (c : ResolvedConnectConfig)
    (password : Option String) (source : String) :
    Except String (Bool × ResolvedConnectConfig) :=
  match c._password with
  | some _ => .ok (false, c)
  | none =>
    let c := { c with _passwordSource := some source }
    match password with
    | none => .ok (false, c)
    | some v => .ok (true, { c with _password := some v })

/-- `_setParam` for `tlsCAData` (no validator). -/
def ResolvedConnectConfig.setTlsCAData (c : ResolvedConnectConfig)
    (caData : Option String) (source : String) :
    Except String (Bool × ResolvedConnectConfig) :=
  match c._tlsCAData with
  | some _ => .ok (false, c)
  | none =>
    let c := { c with _tlsCADataSource := some source }
    match caData with
    | none => .ok (false, c)
    | some v => .ok (true, { c with _tlsCAData := some v })

/-- `setTlsCAFile`: like `setTlsCAData`, but the validator reads the file. -/
def ResolvedConnectConfig.setTlsCAFile (ext : ExtEnv)
    (c : ResolvedConnectConfig) (caFile : Option String) (source : String) :
    Except String (Bool × ResolvedConnectConfig) :=
  match c._tlsCAData with
  | some _ => .ok (false, c)
  | none =>
    let c := { c with _tlsCADataSource := some source }
    match caFile with
    | none => .ok (false, c)
    | some path =>
      match ext.fileContents path with
      | .error e => .error e
      | .ok data => .ok (true, { c with _tlsCAData := some data })

/-- `_setParam` for `tlsVerifyHostname` (boolean or string input). -/
def ResolvedConnectConfig.setTlsVerifyHostname (c : ResolvedConnectConfig)
    (verifyHostname : Option (Sum Bool String)) (source : String) :
    Except String (Bool × ResolvedConnectConfig) :=
  match c._tlsVerifyHostname with
  | some _ => .ok (false, c)
  | none =>
    let c := { c with _tlsVerifyHostnameSource := some source }
    match verifyHostname with
    | none => .ok (false, c)
    | some (.inl b) => .ok (true, { c with _tlsVerifyHostname := some b })
    | some (.inr str) =>
      match parseVerifyHostname str with
      | .error e => .error e
      | .ok b => .ok (true, { c with _tlsVerifyHostname := some b })

/-- `addServerSettings`: spread the new settings first and the existing
ones over them, so entries already present keep their values. -/
def ResolvedConnectConfig.addServerSettings (c : ResolvedConnectConfig)
    (settings : List (String × String)) : ResolvedConnectConfig :=
  { c with serverSettings := settings ++ c.serverSettings }

/-- The `address` getter: defaults applied at read time. -/
def ResolvedConnectConfig.address (c : ResolvedConnectConfig) :
    String × Nat :=
  (c._host.getD "localhost", c._port.getD 5656)

/-- The `database` getter. -/
def ResolvedConnectConfig.database (c : ResolvedConnectConfig) : String :=
  c._database.getD "edgedb"

/-- The `user` getter. -/
def ResolvedConnectConfig.user (c : ResolvedConnectConfig) : String :=
  c._user.getD "edgedb"

/-- The `password` getter (`undefined` modelled as `none`). -/
def ResolvedConnectConfig.password (c : ResolvedConnectConfig) :
    Option String :=
  c._password

/-- The `tlsVerifyHostname` getter: defaults to verifying exactly when no
custom CA was provided. -/
def ResolvedConnectConfig.tlsVerifyHostname (c : ResolvedConnectConfig) :
    Bool :=
  c._tlsVerifyHostname.getD (c._tlsCAData = none)

/-! ### WHATWG URL model

`parseDSNIntoConfig` hands the DSN to the platform URL parser.  The model
below covers absolute URLs of the shape
`scheme://[user[:password]@]host[:port][/path][?query]` (no percent
decoding and no hostname normalization, which the claims never exercise). -/

/-- Split a character list at the first occurrence of `sep`. -/
def splitOnFirst (sep : Char) : List Char → Option (List Char × List Char)
  | [] => none
  | c :: cs =>
    if c = sep then some ([], cs)
    else
      match splitOnFirst sep cs with
      | none => none
      | some (a, b) => some (c :: a, b)

/-- Split a character list at the last occurrence of `sep`. -/
def splitOnLast (sep : Char) (l : List Char) :
    Option (List Char × List Char) :=
  match splitOnFirst sep l.reverse with
  | none => none
  | some (a, b) => some (b.reverse, a.reverse)

/-- Split a character list at the first occurrence of `://`. -/
def splitSchemeDelim : List Char → Option (List Char × List Char)
  | [] => none
  | ':' :: '/' :: '/' :: rest => some ([], rest)
  | c :: cs =>
    match splitSchemeDelim cs with
    | none => none
    | some (a, b) => some (c :: a, b)

/-- Split a character list on every occurrence of `sep`. -/
def splitAll (sep : Char) : List Char → List (List Char)
  | [] => [[]]
  | c :: cs =>
    let r := splitAll sep cs
    if c = sep then [] :: r
    else
      match r with
      | [] => [[c]]
      | a :: rest => (c :: a) :: rest

/-- Parse a query string into key/value pairs in order. -/
def parseQuery (l : List Char) : List (String × String) :=
  if l.isEmpty then []
  else
    (splitAll '&' l).map fun kv =>
      match splitOnFirst '=' kv with
      | none => (String.mk kv, "")
      | some (k, v) => (String.mk k, String.mk v)

/-- The components of a parsed URL exposed by the platform `URL` class
that `parseDSNIntoConfig` reads. -/
structure URLRec where
  protocol : String
  username : String
  password : String
  hostname : String
  port : String
  pathname : String
  searchParams : List (String × String)
deriving Repr, DecidableEq

/-- Model of `new URL(s)` on the URL shapes described above; `none` models
the `TypeError` thrown on anything else. -/
def parseURL (s : String) : Option URLRec :=
  match splitSchemeDelim s.data with
  | none => none
  | some (scheme, rest) =>
    if scheme.isEmpty then none
    else
      let bq := match splitOnFirst '?' rest with
        | none => (rest, [])
        | some (a, b) => (a, parseQuery b)
      let ap := match splitOnFirst '/' bq.1 with
        | none => (bq.1, "")
        | some (a, b) => (a, "/" ++ String.mk b)
      let uh := match splitOnLast '@' ap.1 with
        | none => (([] : List Char), ap.1)
        | some (u, h) => (u, h)
      let up := match splitOnFirst ':' uh.1 with
        | none => (uh.1, ([] : List Char))
        | some (u, p) => (u, p)
      let hp := match splitOnLast ':' uh.2 with
        | none => (uh.2, ([] : List Char))
        | some (h, p) => (h, p)
      some ⟨String.mk scheme ++ ":", String.mk up.1, String.mk up.2,
            String.mk hp.1, String.mk hp.2, ap.2, bq.2⟩

/-- The test `/^[a-z]+:\/\//i.test(dsn)` used to tell a DSN from an
instance name. -/
def hasURLScheme (s : String) : Bool :=
  match splitSchemeDelim s.data with
  | none => false
  | some (scheme, _) => ¬ scheme.isEmpty ∧ scheme.all Char.isAlpha

/-- The test `/^[A-Za-z_][A-Za-z_0-9]*$/.test(name)` for instance names. -/
def validInstanceName (s : String) : Bool :=
  match s.data with
  | [] => false
  | c :: cs =>
    (c.isAlpha ∨ c = '_') ∧ cs.all (fun d => d.isAlphanum ∨ d = '_')

/-- Whether `s` starts with `pre` (`String.startsWith`). -/
def strHasStart (s pre : String) : Bool :=
  s.data.take pre.data.length = pre.data

/-! ### parseDSNIntoConfig (src/unnamed/part_004) -/

/-- Lookup in the remaining search-params map. -/
def spGet (sp : List (String × String)) (k : String) : Option String :=
  (sp.find? fun p => p.1 = k).map fun p => p.2

/-- Delete a key from the remaining search-params map. -/
def spDelete (sp : List (String × String)) (k : String) :
    List (String × String) :=
  sp.filter fun p => p.1 ≠ k

/-- Build the search-params map, failing on a duplicate key. -/
def buildSearchMap (pairs : List (String × String)) :
    Except String (List (String × String)) :=
  pairs.foldlM
    (fun sp kv =>
      if (spGet sp kv.1).isSome then
        .error ("invalid DSN: duplicate query parameter " ++ kv.1)
      else .ok (sp ++ [kv]))
    []

/-- `handleDSNPart`: resolve one scalar from the DSN component, the
`?name=` / `?name_env=` / `?name_file=` query variants (at most one of the
four may be present), pass it through the formatter and the setter when
the field is still unset, and delete the three query keys.
`currentUnset` models the `currentValue === null` test on the resolved
config field. -/
def handleDSNPart (ext : ExtEnv) (dsnString source : String)
    (rc : ResolvedConnectConfig) (sp : List (String × String))
    (paramName : String) (value : Option String) (currentUnset : Bool)
    (setter : ResolvedConnectConfig → Option String → String →
      Except String (Bool × ResolvedConnectConfig))
    (formatter : String → String := fun v => v) :
    Except String (ResolvedConnectConfig × List (String × String)) :=
  let valueN : Option String := match value with
    | some v => if v = "" then none else some v
    | none => none
  let variants : List (Option String) :=
    [valueN, spGet sp paramName, spGet sp (paramName ++ "_env"),
     spGet sp (paramName ++ "_file")]
  if 1 < (variants.filter Option.isSome).length then
    .error ("invalid DSN: more than one of " ++ paramName ++
      ", ?" ++ paramName ++ "=, ?" ++ paramName ++ "_env= or ?" ++
      paramName ++ "_file= was specified " ++ dsnString)
  else
    let afterSet : Except String ResolvedConnectConfig :=
      if currentUnset then
        let param0 : Option String := match valueN with
          | some v => some v
          | none => spGet sp paramName
        let stepEnv : Except String (Option String × String) :=
          match param0 with
          | some v => .ok (some v, source)
          | none =>
            match spGet sp (paramName ++ "_env") with
            | some envName =>
              match ext.envVar envName with
              | some v =>
                .ok (some v, source ++ " (" ++ paramName ++ "_env: " ++
                  envName ++ ")")
              | none =>
                .error (paramName ++ "_env environment variable " ++
                  envName ++ " does not exist")
            | none => .ok (none, source)
        match stepEnv with
        | .error e => .error e
        | .ok (param1, paramSource1) =>
          let stepFile : Except String (Option String × String) :=
            match param1 with
            | some v => .ok (some v, paramSource1)
            | none =>
              match spGet sp (paramName ++ "_file") with
              | some file =>
                match ext.fileContents file with
                | .error e => .error e
                | .ok v =>
                  .ok (some v, paramSource1 ++ " (" ++ paramName ++
                    "_file: " ++ file ++ ")")
              | none => .ok (none, paramSource1)
          match stepFile with
          | .error e => .error e
          | .ok (param2, paramSource2) =>
            match setter rc (param2.map formatter) paramSource2 with
            | .error e => .error e
            | .ok (_, rc) => .ok rc
      else .ok rc
    match afterSet with
    | .error e => .error e
    | .ok rc =>
      .ok (rc, spDelete (spDelete (spDelete sp paramName)
        (paramName ++ "_env")) (paramName ++ "_file"))

/-- `str.replace(/^\//, "")`. -/
def stripLeadingSlash (s : String) : String :=
  match s.data with
  | '/' :: rest => String.mk rest
  | _ => s

/-- `parseDSNIntoConfig`. -/
def parseDSNIntoConfig (ext : ExtEnv) (dsnString : String)
    (rc : ResolvedConnectConfig) (source : String) :
    Except String ResolvedConnectConfig :=
  match parseURL dsnString with
  | none => .error ("invalid DSN or instance name: " ++ dsnString)
  | some parsed =>
    if parsed.protocol ≠ "edgedb:" then
      .error ("invalid DSN: scheme is expected to be edgedb, got " ++
        parsed.protocol)
    else
      match buildSearchMap parsed.searchParams with
      | .error e => .error e
      | .ok sp =>
        match handleDSNPart ext dsnString source rc sp "host"
            (some parsed.hostname) (rc._host = none)
            ResolvedConnectConfig.setHost with
        | .error e => .error e
        | .ok (rc, sp) =>
          match handleDSNPart ext dsnString source rc sp "port"
              (some parsed.port) (rc._port = none)
              (fun rc v src => rc.setPort (v.map Sum.inl) src) with
          | .error e => .error e
          | .ok (rc, sp) =>
            match handleDSNPart ext dsnString source rc sp "database"
                (some (stripLeadingSlash parsed.pathname))
                (rc._database = none)
                ResolvedConnectConfig.setDatabase stripLeadingSlash with
            | .error e => .error e
            | .ok (rc, sp) =>
              match handleDSNPart ext dsnString source rc sp "user"
                  (some parsed.username) (rc._user = none)
                  ResolvedConnectConfig.setUser with
              | .error e => .error e
              | .ok (rc, sp) =>
                match handleDSNPart ext dsnString source rc sp "password"
                    (some parsed.password) (rc._password = none)
                    ResolvedConnectConfig.setPassword with
                | .error e => .error e
                | .ok (rc, sp) =>
                  match handleDSNPart ext dsnString source rc sp
                      "tls_cert_file" none (rc._tlsCAData = none)
                      (fun rc v src =>
                        ResolvedConnectConfig.setTlsCAFile ext rc v src) with
                  | .error e => .error e
                  | .ok (rc, sp) =>
                    match handleDSNPart ext dsnString source rc sp
                        "tls_verify_hostname" none
                        (rc._tlsVerifyHostname = none)
                        (fun rc v src =>
                          rc.setTlsVerifyHostname (v.map Sum.inr) src) with
                    | .error e => .error e
                    | .ok (rc, sp) => .ok (rc.addServerSettings sp)

/-! ### resolveConfigOptions / parseConnectArguments (src/unnamed/part_004) -/

/-- The per-level option record handed to `resolveConfigOptions`. -/
structure CfgOptions where
  dsn : Option String := none
  instanceName : Option String := none
  credentialsFile : Option String := none
  host : Option String := none
  port : Option (Sum String Int) := none
  database : Option String := none
  user : Option String := none
  password : Option String := none
  tlsCAFile : Option String := none
  tlsVerifyHostname : Option (Sum Bool String) := none
  serverSettings : Option (List (String × String)) := none

/-- The source labels for one precedence level. -/
structure CfgSources where
  dsn : String := ""
  instanceName : String := ""
  credentialsFile : String := ""
  host : String := ""
  port : String := ""
  database : String := ""
  user : String := ""
  password : String := ""
  tlsCAFile : String := ""
  tlsVerifyHostname : String := ""

/-- Result of `resolveConfigOptions`:
`(hasCompoundOptions, anyOptionsUsed, updated config)`. -/
def resolveConfigOptions (ext : ExtEnv) (rc : ResolvedConnectConfig)
    (config : CfgOptions) (sources : CfgSources)
    (compoundParamsError : String) :
    Except String (Bool × Bool × ResolvedConnectConfig) :=
  match rc.setDatabase config.database sources.database with
  | .error e => .error e
  | .ok (u1, rc) =>
    match rc.setUser config.user sources.user with
    | .error e => .error e
    | .ok (u2, rc) =>
      match rc.setPassword config.password sources.password with
      | .error e => .error e
      | .ok (u3, rc) =>
        match ResolvedConnectConfig.setTlsCAFile ext rc config.tlsCAFile
            sources.tlsCAFile with
        | .error e => .error e
        | .ok (u4, rc) =>
          match rc.setTlsVerifyHostname config.tlsVerifyHostname
              sources.tlsVerifyHostname with
          | .error e => .error e
          | .ok (u5, rc) =>
            let anyOptionsUsed := u1 || u2 || u3 || u4 || u5
            let rc := rc.addServerSettings (config.serverSettings.getD [])
            let compoundParamsCount :=
              ([config.dsn.isSome, config.instanceName.isSome,
                config.credentialsFile.isSome,
                config.host.isSome || config.port.isSome].filter
                  fun b => b = true).length
            if 1 < compoundParamsCount then .error compoundParamsError
            else if compoundParamsCount = 1 then
              if config.dsn.isSome ∨ config.host.isSome ∨
                  config.port.isSome then
                let dsnAndRc : Except String (String × ResolvedConnectConfig) :=
                  match config.dsn with
                  | some d => .ok (d, rc)
                  | none =>
                    let rcPort : Except String ResolvedConnectConfig :=
                      match config.port with
                      | some p =>
                        match rc.setPort (some p) sources.port with
                        | .error e => .error e
                        | .ok (_, rc) => .ok rc
                      | none => .ok rc
                    match rcPort with
                    | .error e => .error e
                    | .ok rc =>
                      match config.host with
                      | some h =>
                        match validateHost h with
                        | .error e => .error e
                        | .ok h => .ok ("edgedb://" ++ h, rc)
                      | none => .ok ("edgedb://", rc)
                match dsnAndRc with
                | .error e => .error e
                | .ok (dsn, rc) =>
                  let src :=
                    if config.dsn.getD "" ≠ "" then sources.dsn
                    else if config.host.isSome then sources.host
                    else sources.port
                  match parseDSNIntoConfig ext dsn rc src with
                  | .error e => .error e
                  | .ok rc => .ok (true, true, rc)
              else
                let credsFile : Except String String :=
                  match config.credentialsFile with
                  | some f => .ok f
                  | none =>
                    if validInstanceName (config.instanceName.getD "") then
                      .ok (ext.credentialsPath (config.instanceName.getD ""))
                    else
                      .error ("invalid DSN or instance name: " ++
                        config.instanceName.getD "")
                match credsFile with
                | .error e => .error e
                | .ok credentialsFile =>
                  match ext.credentials credentialsFile with
                  | .error e => .error e
                  | .ok creds =>
                    let source :=
                      if config.credentialsFile.getD "" ≠ "" then
                        sources.credentialsFile
                      else sources.instanceName
                    match rc.setHost creds.host source with
                    | .error e => .error e
                    | .ok (_, rc) =>
                      match rc.setPort (creds.port.map Sum.inr) source with
                      | .error e => .error e
                      | .ok (_, rc) =>
                        match rc.setDatabase creds.database source with
                        | .error e => .error e
                        | .ok (_, rc) =>
                          match rc.setUser creds.user source with
                          | .error e => .error e
                          | .ok (_, rc) =>
                            match rc.setPassword creds.password source with
                            | .error e => .error e
                            | .ok (_, rc) =>
                              match rc.setTlsCAData creds.tlsCAData
                                  source with
                              | .error e => .error e
                              | .ok (_, rc) =>
                                match rc.setTlsVerifyHostname
                                    (creds.tlsVerifyHostname.map Sum.inl)
                                    source with
                                | .error e => .error e
                                | .ok (_, rc) => .ok (true, true, rc)
            else .ok (false, anyOptionsUsed, rc)

/-- The user-facing option record of the resolver (the `ConnectConfig` of
src/unnamed/part_004; the client file has its own smaller record, modelled
separately below). -/
structure ConnectConfig where
  dsn : Option String := none
  credentialsFile : Option String := none
  host : Option String := none
  port : Option Int := none
  database : Option String := none
  user : Option String := none
  password : Option String := none
  serverSettings : Option (List (String × String)) := none
  tlsCAFile : Option String := none
  tlsVerifyHostname : Option Bool := none
  timeout : Option Int := none
  commandTimeout : Option Int := none
  waitUntilAvailable : Option Int := none
  logging : Option Bool := none

/-- `PartiallyNormalizedConfig`. -/
structure PartiallyNormalizedConfig where
  connectionParams : ResolvedConnectConfig
  inProject : Bool
  fromProject : Bool
  fromEnv : Bool
deriving Repr, DecidableEq

/-- `NormalizedConnectConfig`. -/
structure NormalizedConnectConfig extends PartiallyNormalizedConfig where
  connectTimeout : Option Int
  commandTimeout : Option Int
  waitUntilAvailable : Int
  logging : Bool
deriving Repr, DecidableEq

/-- Source labels of the explicit-options level (quote characters of the
source strings elided). -/
def optionSources : CfgSources where
  dsn := "dsnOrInstanceName option (parsed as dsn)"
  instanceName := "dsnOrInstanceName option (parsed as instance name)"
  credentialsFile := "credentialsFile option"
  host := "host option"
  port := "port option"
  database := "database option"
  user := "user option"
  password := "password option"
  tlsCAFile := "tlsCAFile option"
  tlsVerifyHostname := "tlsVerifyHostname option"

/-- Source labels of the environment-variable level. -/
def envSources : CfgSources where
  dsn := "EDGEDB_DSN environment variable"
  instanceName := "EDGEDB_INSTANCE environment variable"
  credentialsFile := "EDGEDB_CREDENTIALS_FILE environment variable"
  host := "EDGEDB_HOST environment variable"
  port := "EDGEDB_PORT environment variable"
  database := "EDGEDB_DATABASE environment variable"
  user := "EDGEDB_USER environment variable"
  password := "EDGEDB_PASSWORD environment variable"
  tlsCAFile := "EDGEDB_TLS_CA_FILE environment variable"
  tlsVerifyHostname := "EDGEDB_TLS_VERIFY_HOSTNAME environment variable"

/-- The compound-options error of the explicit level. -/
def compoundOptionsError : String :=
  "Cannot have more than one of the following connection options: " ++
    "dsnOrInstanceName, credentialsFile or host/port"

/-- The compound-options error of the environment level. -/
def compoundEnvError : String :=
  "Cannot have more than one of the following connection environment " ++
    "variables: EDGEDB_DSN, EDGEDB_INSTANCE, EDGEDB_CREDENTIALS_FILE " ++
    "or EDGEDB_HOST"

/-- `parseConnectDsnAndArgs`: the three precedence levels — explicit
options, environment variables, project-linked instance. -/
def parseConnectDsnAndArgs (ext : ExtEnv) (config : ConnectConfig)
    (projectDir : Option String) :
    Except String PartiallyNormalizedConfig :=
  let rc := ResolvedConnectConfig.new
  let dsnSplit : Option String × Option String :=
    match config.dsn with
    | some d => if d ≠ "" ∧ hasURLScheme d then (some d, none)
                else (none, some d)
    | none => (none, none)
  match resolveConfigOptions ext rc
      { dsn := dsnSplit.1, instanceName := dsnSplit.2,
        credentialsFile := config.credentialsFile, host := config.host,
        port := config.port.map Sum.inr, database := config.database,
        user := config.user, password := config.password,
        tlsCAFile := config.tlsCAFile,
        tlsVerifyHostname := config.tlsVerifyHostname.map Sum.inl,
        serverSettings := config.serverSettings }
      optionSources compoundOptionsError with
  | .error e => .error e
  | .ok (hasCompoundOptions, _, rc) =>
    if hasCompoundOptions then
      .ok ⟨rc, projectDir.isSome, false, false⟩
    else
      let port0 := ext.envVar "EDGEDB_PORT"
      let port :=
        match port0 with
        | some p =>
          if rc._port = none ∧ strHasStart p "tcp://" then none
          else some p
        | none => none
      match resolveConfigOptions ext rc
          { dsn := ext.envVar "EDGEDB_DSN",
            instanceName := ext.envVar "EDGEDB_INSTANCE",
            credentialsFile := ext.envVar "EDGEDB_CREDENTIALS_FILE",
            host := ext.envVar "EDGEDB_HOST",
            port := port.map Sum.inl,
            database := ext.envVar "EDGEDB_DATABASE",
            user := ext.envVar "EDGEDB_USER",
            password := ext.envVar "EDGEDB_PASSWORD",
            tlsCAFile := ext.envVar "EDGEDB_TLS_CA_FILE",
            tlsVerifyHostname :=
              (ext.envVar "EDGEDB_TLS_VERIFY_HOSTNAME").map Sum.inr,
            serverSettings := none }
          envSources compoundEnvError with
      | .error e => .error e
      | .ok (hasCompoundEnv, fromEnv, rc) =>
        if hasCompoundEnv then
          .ok ⟨rc, projectDir.isSome, false, fromEnv⟩
        else
          match projectDir with
          | none =>
            .error ("no edgedb.toml found and no connection options " ++
              "specified either via arguments to connect() API or via " ++
              "environment variables EDGEDB_HOST, EDGEDB_INSTANCE, " ++
              "EDGEDB_DSN or EDGEDB_CREDENTIALS_FILE")
          | some dir =>
            let stashDir := ext.stashPathOf dir
            if ext.pathExists stashDir then
              match ext.fileContents (stashDir ++ "/instance-name") with
              | .error e => .error e
              | .ok instRaw =>
                let instName := instRaw.trim
                match resolveConfigOptions ext rc
                    { instanceName := some instName }
                    { instanceName := "project linked instance (" ++
                        instName ++ ")" } "" with
                | .error e => .error e
                | .ok (_, _, rc) => .ok ⟨rc, true, true, fromEnv⟩
            else
              .error ("Found edgedb.toml but the project is not " ++
                "initialized. Run edgedb project init.")

/-- `parseConnectArguments`.  `findProjectDir` walks the filesystem; its
result is passed in as `projectDir`. -/
def parseConnectArguments (ext : ExtEnv) (opts : ConnectConfig)
    (projectDir : Option String) :
    Except String NormalizedConnectConfig :=
  match opts.commandTimeout with
  | some t =>
    if t < 0 then
      .error ("invalid commandTimeout value: expected greater than 0 " ++
        "float (got " ++ toString t ++ ")")
    else
      match parseConnectDsnAndArgs ext opts projectDir with
      | .error e => .error e
      | .ok p =>
        .ok ⟨p, opts.timeout, opts.commandTimeout,
             opts.waitUntilAvailable.getD 30000, opts.logging.getD true⟩
  | none =>
    match parseConnectDsnAndArgs ext opts projectDir with
    | .error e => .error e
    | .ok p =>
      .ok ⟨p, opts.timeout, opts.commandTimeout,
           opts.waitUntilAvailable.getD 30000, opts.logging.getD true⟩

/-- The client-side connection options (`ConnectConfig` of
src/src/client.ts): host and port only; user and database are not
configurable through this record. -/
structure ClientConnectConfig where
  port : Option Nat := none
  host : Option String := none

/-! ### Helper lemmas on the byte encodings -/

theorem int32BEBytesI_ofNat (n : Nat) :
    int32BEBytesI (n : Int) = int32BEBytes n := by
  unfold int32BEBytesI int32BEBytes
  have h : (((n : Int)) % (2 ^ 32 : Int)).toNat = n % 2 ^ 32 := by omega
  rw [h]
  simp only [List.cons.injEq, and_true]
  refine ⟨?_, ?_, ?_, ?_⟩ <;> omega

theorem readUInt32BEAt_int32BEBytes (n : Nat) (rest : List Nat) :
    readUInt32BEAt (int32BEBytes n ++ rest) 0 = n % 2 ^ 32 := by
  simp [readUInt32BEAt, int32BEBytes]
  omega

theorem readUInt16BEAt_int16BEBytes (n : Nat) (rest : List Nat) :
    readUInt16BEAt (int16BEBytes n ++ rest) 0 = n % 2 ^ 16 := by
  simp [readUInt16BEAt, int16BEBytes]
  omega

theorem toInt32_of_emod (v : Int) (h1 : -(2 ^ 31) ≤ v) (h2 : v < 2 ^ 31) :
    toInt32 ((v % (2 ^ 32 : Int)).toNat % 2 ^ 32) = v := by
  unfold toInt32
  split <;> omega

theorem toInt16_of_emod (v : Int) (h1 : -(2 ^ 15) ≤ v) (h2 : v < 2 ^ 15) :
    toInt16 ((v % (2 ^ 16 : Int)).toNat % 2 ^ 16) = v := by
  unfold toInt16
  split <;> omega

theorem readUInt16BEAt_int16BEBytes_nil (n : Nat) :
    readUInt16BEAt (int16BEBytes n) 0 = n % 2 ^ 16 := by
  simp [readUInt16BEAt, int16BEBytes]
  omega

theorem readUInt32BEAt_int32BEBytes_nil (n : Nat) :
    readUInt32BEAt (int32BEBytes n) 0 = n % 2 ^ 32 := by
  simp [readUInt32BEAt, int32BEBytes]
  omega

/-! ### Claim C2: fetchOne and the row count -/

theorem executeLoop_dataRows (rows : List Nat) (rest : List ServerMsg)
    (acc : List Nat) (err : Option String) :
    executeLoop (rows.map ServerMsg.dataRow ++ rest) acc err
      = executeLoop rest (acc ++ rows) err := by
  induction rows generalizing acc with
  | nil => simp
  | cons r t ih =>
    simp only [List.map_cons, List.cons_append]
    rw [show executeLoop (ServerMsg.dataRow r ::
          (List.map ServerMsg.dataRow t ++ rest)) acc err
        = executeLoop (List.map ServerMsg.dataRow t ++ rest) (acc ++ [r]) err
      from rfl, ih]
    simp

/-- C2 (counterexample): with two Data rows `fetchOne` completes with the
first row instead of raising, and with zero Data rows it completes with
`undefined` (modelled `none`) instead of raising. -/
theorem fetchOne_row_count_counterexample :
    fetchOneModel [ServerMsg.dataRow 1, ServerMsg.dataRow 2,
        ServerMsg.commandComplete "SELECT 2", ServerMsg.readyForCommand]
      = .ok (some 1) ∧
    fetchOneModel [ServerMsg.commandComplete "SELECT 0",
        ServerMsg.readyForCommand] = .ok none :=
  ⟨rfl, rfl⟩

/-- C2 (amended): for every row sequence the server sends, `fetchOne`
returns `result[0]` — the single row when there is exactly one, `undefined`
(`none`) when there are zero rows, and the first row when there are more
than one; it raises no row-count error. -/
theorem fetchOne_returns_first_row (rows : List Nat) (status : String) :
    fetchOneModel (rows.map ServerMsg.dataRow ++
        [ServerMsg.commandComplete status, ServerMsg.readyForCommand])
      = .ok rows.head? := by
  unfold fetchOneModel
  rw [executeLoop_dataRows]
  simp [executeLoop]

/-! ### Claim C3: integer scalar codec round-trips -/

theorem int16_decode_encoded (v : Int) (h1 : -(2 ^ 15) ≤ v)
    (h2 : v < 2 ^ 15) :
    Int16Codec.decode (ReadBuffer.ofBytes (int16BEBytesI v)) = .ok v := by
  have hlen : (int16BEBytesI v).length = 2 := by
    simp [int16BEBytesI, int16BEBytes]
  unfold Int16Codec.decode ReadBuffer.readInt16 ReadBuffer.ofBytes
  rw [hlen]
  norm_num
  show toInt16 (readUInt16BEAt (int16BEBytes ((v % (2 ^ 16 : Int))).toNat) 0)
    = v
  rw [readUInt16BEAt_int16BEBytes_nil]
  exact toInt16_of_emod v h1 h2

theorem int32_decode_encoded (v : Int) (h1 : -(2 ^ 31) ≤ v)
    (h2 : v < 2 ^ 31) :
    Int32Codec.decode (ReadBuffer.ofBytes (int32BEBytesI v)) = .ok v := by
  have hlen : (int32BEBytesI v).length = 4 := by
    simp [int32BEBytesI, int32BEBytes]
  unfold Int32Codec.decode ReadBuffer.readInt32 ReadBuffer.ofBytes
  rw [hlen]
  norm_num
  show toInt32 (readUInt32BEAt (int32BEBytes ((v % (2 ^ 32 : Int))).toNat) 0)
    = v
  rw [readUInt32BEAt_int32BEBytes_nil]
  exact toInt32_of_emod v h1 h2

theorem int16_encode_payload (v : Int) :
    (Int16Codec.encode WriteBuffer.new v).buffer.drop 4 = int16BEBytesI v := by
  simp [Int16Codec.encode, WriteBuffer.writeInt32, WriteBuffer.writeInt16,
    WriteBuffer.new]
  rfl

theorem int32_encode_payload (v : Int) :
    (Int32Codec.encode WriteBuffer.new v).buffer.drop 4 = int32BEBytesI v := by
  simp [Int32Codec.encode, WriteBuffer.writeInt32, WriteBuffer.new]
  rfl

/-- C3: `Int16Codec` and `Int32Codec` decode their own encodings back to
the original value on their whole domains, and `Int32Codec.encode`
produces exactly `00 00 00 04 FF FE 1D C0` for −123456; but
`Int64Codec.encode` truncates through the JavaScript 32-bit `>>` and `&`
operators, so already at the in-domain value 7 it emits hi = lo = 7 and
decoding returns 30064771079 rather than 7 (the code contradicts the
spec's round-trip contract). -/
theorem int_codecs_roundtrip_and_int64_failing_input (v16 v32 : Int)
    (h16a : -(2 ^ 15) ≤ v16) (h16b : v16 < 2 ^ 15)
    (h32a : -(2 ^ 31) ≤ v32) (h32b : v32 < 2 ^ 31) :
    Int16Codec.decode (ReadBuffer.ofBytes
        ((Int16Codec.encode WriteBuffer.new v16).buffer.drop 4)) = .ok v16 ∧
    Int32Codec.decode (ReadBuffer.ofBytes
        ((Int32Codec.encode WriteBuffer.new v32).buffer.drop 4)) = .ok v32 ∧
    (Int32Codec.encode WriteBuffer.new (-123456)).buffer
        = [0x00, 0x00, 0x00, 0x04, 0xFF, 0xFE, 0x1D, 0xC0] ∧
    Int32Codec.decode (ReadBuffer.ofBytes [0xFF, 0xFE, 0x1D, 0xC0])
        = .ok (-123456) ∧
    (Int64Codec.encode WriteBuffer.new 7).buffer
        = [0, 0, 0, 8, 0, 0, 0, 7, 0, 0, 0, 7] ∧
    Int64Codec.decode (ReadBuffer.ofBytes
        ((Int64Codec.encode WriteBuffer.new 7).buffer.drop 4))
        = .ok 30064771079 ∧
    Int64Codec.decode (ReadBuffer.ofBytes
        ((Int64Codec.encode WriteBuffer.new 7).buffer.drop 4)) ≠ .ok 7 := by
  have h6 : Int64Codec.decode (ReadBuffer.ofBytes
      ((Int64Codec.encode WriteBuffer.new 7).buffer.drop 4))
      = .ok 30064771079 := rfl
  refine ⟨?_, ?_, by decide, rfl, by decide, h6, ?_⟩
  · rw [int16_encode_payload]
    exact int16_decode_encoded v16 h16a h16b
  · rw [int32_encode_payload]
    exact int32_decode_encoded v32 h32a h32b
  · intro h
    rw [h6] at h
    exact absurd (Except.ok.inj h) (by decide)

/-- C3 (witness): the round-trip theorem applied at concrete values. -/
theorem int_codecs_roundtrip_witness :
    Int16Codec.decode (ReadBuffer.ofBytes
        ((Int16Codec.encode WriteBuffer.new (-300)).buffer.drop 4))
      = .ok (-300) ∧
    Int32Codec.decode (ReadBuffer.ofBytes
        ((Int32Codec.encode WriteBuffer.new (-123456)).buffer.drop 4))
      = .ok (-123456) :=
  ⟨(int_codecs_roundtrip_and_int64_failing_input (-300) (-123456)
      (by norm_num) (by norm_num) (by norm_num) (by norm_num)).1,
   (int_codecs_roundtrip_and_int64_failing_input (-300) (-123456)
      (by norm_num) (by norm_num) (by norm_num) (by norm_num)).2.1⟩

/-! ### Claim C4: the back-patched length field -/

theorem int32BEBytes_length (n : Nat) : (int32BEBytes n).length = 4 := rfl

theorem readUInt32BEAt_cons (t : Nat) (l : List Nat) :
    readUInt32BEAt (t :: l) 1 = readUInt32BEAt l 0 := rfl

theorem runOp_append (w : WriteMessageBuffer) (op : WOp)
    (h : 0 ≤ w.messagePos) :
    w.runOp op = .ok ⟨⟨w.buffer.buffer ++ op.bytes⟩, w.messagePos⟩ := by
  have hneg : ¬ w.messagePos < 0 := by omega
  cases op <;>
    simp [WriteMessageBuffer.runOp, WriteMessageBuffer.writeChar,
      WriteMessageBuffer.writeInt16, WriteMessageBuffer.writeInt32,
      WriteMessageBuffer.writeUInt16, WriteMessageBuffer.writeUInt32,
      WriteMessageBuffer.writeStringBytes, WriteMessageBuffer.writeBytes,
      WriteBuffer.writeChar, WriteBuffer.writeInt16, WriteBuffer.writeInt32,
      WriteBuffer.writeUInt16, WriteBuffer.writeUInt32,
      WriteBuffer.writeStringBytes, WriteBuffer.writeBytes,
      WOp.bytes, hneg]

theorem runOps_append (ops : List WOp) (w : WriteMessageBuffer)
    (h : 0 ≤ w.messagePos) :
    w.runOps ops = .ok ⟨⟨w.buffer.buffer ++ wopsBytes ops⟩, w.messagePos⟩ := by
  induction ops generalizing w with
  | nil =>
    show Except.ok w = _
    cases w with
    | mk buf pos =>
      cases buf with
      | mk bytes => simp [wopsBytes]
  | cons op ops ih =>
    show (match w.runOp op with
          | .error e => (Except.error e : Except String WriteMessageBuffer)
          | .ok w => w.runOps ops) = _
    rw [runOp_append w op h]
    show (⟨⟨w.buffer.buffer ++ op.bytes⟩, w.messagePos⟩ :
      WriteMessageBuffer).runOps ops = _
    rw [ih ⟨⟨w.buffer.buffer ++ op.bytes⟩, w.messagePos⟩ h]
    simp [wopsBytes]

theorem endMessage_eval (orig : List Nat) (tg : Nat) (body : List Nat) :
    (⟨⟨(orig ++ tg % 256 :: [0, 0, 0, 0]) ++ body⟩, (orig.length : Int)⟩ :
        WriteMessageBuffer).endMessage
      = .ok ⟨⟨orig ++ tg % 256 :: (int32BEBytes (body.length + 4) ++ body)⟩,
             -1⟩ := by
  unfold WriteMessageBuffer.endMessage
  rw [if_neg (show ¬ ((orig.length : Int) < 0) by omega)]
  simp only [Except.ok.injEq, WriteMessageBuffer.mk.injEq, and_true]
  unfold WriteBuffer.patchInt32BE WriteBuffer.position
  have hval : ((((orig ++ tg % 256 :: [0, 0, 0, 0]) ++ body).length : Int)
      - (orig.length : Int) - 1) = ((body.length + 4 : Nat) : Int) := by
    simp
    ring
  have hoff : (((orig.length : Int) + 1).toNat) = orig.length + 1 := by
    omega
  rw [hval, hoff, int32BEBytesI_ofNat]
  have htk : ((orig ++ tg % 256 :: [0, 0, 0, 0]) ++ body).take
      (orig.length + 1) = orig ++ [tg % 256] := by
    rw [show (orig ++ tg % 256 :: [0, 0, 0, 0]) ++ body
        = (orig ++ [tg % 256]) ++ ([0, 0, 0, 0] ++ body) by simp]
    rw [show orig.length + 1 = (orig ++ [tg % 256]).length by simp]
    exact List.take_left _ _
  have hdr : ((orig ++ tg % 256 :: [0, 0, 0, 0]) ++ body).drop
      (orig.length + 1 + 4) = body := by
    rw [show (orig ++ tg % 256 :: [0, 0, 0, 0]) ++ body
        = ((orig ++ tg % 256 :: [0, 0, 0, 0])) ++ body from rfl]
    rw [show orig.length + 1 + 4 = (orig ++ tg % 256 :: [0, 0, 0, 0]).length
      by simp]
    exact List.drop_left _ _
  rw [htk, hdr]
  simp

theorem buildMessage_eval (w : WriteMessageBuffer) (tag : Nat) (ops : List WOp)
    (hopen : w.messagePos = -1) :
    w.buildMessage tag ops = .ok ⟨⟨w.buffer.buffer ++ tag % 256 ::
      (int32BEBytes ((wopsBytes ops).length + 4) ++ wopsBytes ops)⟩, -1⟩ := by
  have hbegin : w.beginMessage tag
      = .ok ⟨⟨w.buffer.buffer ++ tag % 256 :: [0, 0, 0, 0]⟩,
             (w.buffer.buffer.length : Int)⟩ := by
    unfold WriteMessageBuffer.beginMessage
    rw [if_neg (by omega)]
    simp [WriteBuffer.writeChar, WriteBuffer.writeInt32, WriteBuffer.position,
      int32BEBytesI, int32BEBytes]
  unfold WriteMessageBuffer.buildMessage
  rw [hbegin]
  show (match (⟨⟨w.buffer.buffer ++ tag % 256 :: [0, 0, 0, 0]⟩,
      ((w.buffer.buffer.length : Int))⟩ : WriteMessageBuffer).runOps ops with
    | .error e => Except.error e
    | .ok w => w.endMessage) = _
  rw [runOps_append ops _ (by positivity)]
  show (⟨⟨(w.buffer.buffer ++ tag % 256 :: [0, 0, 0, 0]) ++ wopsBytes ops⟩,
      ((w.buffer.buffer.length : Int))⟩ : WriteMessageBuffer).endMessage = _
  exact endMessage_eval w.buffer.buffer tag (wopsBytes ops)

/-- C4: after `beginMessage(tag)`, any sequence of typed writes, and
`endMessage`, the appended frame consists of the tag byte, four big-endian
length bytes whose value is the frame size minus one (the length field
counts everything after the tag, its own four bytes included), and the
written body. -/
theorem writeMessage_length_field (w : WriteMessageBuffer) (tag : Nat)
    (ops : List WOp) (hopen : w.messagePos = -1)
    (hfit : (wopsBytes ops).length + 4 < 2 ^ 31) :
    ∃ frame, w.buildMessage tag ops = .ok ⟨⟨w.buffer.buffer ++ frame⟩, -1⟩ ∧
      frame.length = (wopsBytes ops).length + 5 ∧
      (frame.drop 1).take 4 = int32BEBytes (frame.length - 1) ∧
      readUInt32BEAt frame 1 = frame.length - 1 := by
  refine ⟨tag % 256 :: (int32BEBytes ((wopsBytes ops).length + 4)
    ++ wopsBytes ops), buildMessage_eval w tag ops hopen, ?_, ?_, ?_⟩
  · simp [int32BEBytes_length]
    omega
  · have hflen : (tag % 256 :: (int32BEBytes ((wopsBytes ops).length + 4)
        ++ wopsBytes ops)).length - 1 = (wopsBytes ops).length + 4 := by
      simp [int32BEBytes_length]
      omega
    rw [hflen]
    show (int32BEBytes ((wopsBytes ops).length + 4)
        ++ wopsBytes ops).take 4 = _
    rw [show (4 : Nat) = (int32BEBytes ((wopsBytes ops).length + 4)).length
      from rfl]
    exact List.take_left _ _
  · have hflen : (tag % 256 :: (int32BEBytes ((wopsBytes ops).length + 4)
        ++ wopsBytes ops)).length - 1 = (wopsBytes ops).length + 4 := by
      simp [int32BEBytes_length]
      omega
    rw [hflen, readUInt32BEAt_cons, readUInt32BEAt_int32BEBytes]
    omega

/-- C4 (witness): the length-field theorem at a concrete message. -/
theorem writeMessage_length_field_witness :
    ∃ frame, WriteMessageBuffer.new.buildMessage 80 [.i16 1, .strB [9, 9, 9]]
        = .ok ⟨⟨WriteMessageBuffer.new.buffer.buffer ++ frame⟩, -1⟩ ∧
      frame.length = (wopsBytes [.i16 1, .strB [9, 9, 9]]).length + 5 ∧
      (frame.drop 1).take 4 = int32BEBytes (frame.length - 1) ∧
      readUInt32BEAt frame 1 = frame.length - 1 :=
  writeMessage_length_field WriteMessageBuffer.new 80 [.i16 1, .strB [9, 9, 9]]
    rfl (by decide)

/-! ### Claim C5: overread behaviour of the read primitives -/

theorem readBuffer_overread (s : ReadMessageBuffer) (size : Nat)
    (h : s.curMessageLenUnread < (size : Int)) :
    s.readBuffer size = .err "buffer overread" s := by
  unfold ReadMessageBuffer.readBuffer
  rw [if_pos (show s.overreads size from Or.inl h)]

theorem readChar_overread (s : ReadMessageBuffer)
    (h : s.curMessageLenUnread < 1) :
    s.readChar = .err "buffer overread" s := by
  unfold ReadMessageBuffer.readChar
  rw [if_pos (show s.overreads 1 from Or.inl (by exact_mod_cast h))]

theorem readInt16_overread (s : ReadMessageBuffer)
    (h : s.curMessageLenUnread < 2) :
    s.readInt16 = .err "buffer overread" s := by
  unfold ReadMessageBuffer.readInt16
  rw [if_pos (show s.overreads 2 from Or.inl (by exact_mod_cast h))]

theorem readInt32_overread (s : ReadMessageBuffer)
    (h : s.curMessageLenUnread < 4) :
    s.readInt32 = .err "buffer overread" s := by
  unfold ReadMessageBuffer.readInt32
  rw [if_pos (show s.overreads 4 from Or.inl (by exact_mod_cast h))]

theorem readUInt16_overread (s : ReadMessageBuffer)
    (h : s.curMessageLenUnread < 2) :
    s.readUInt16 = .err "buffer overread" s := by
  unfold ReadMessageBuffer.readUInt16
  rw [if_pos (show s.overreads 2 from Or.inl (by exact_mod_cast h))]

theorem readUInt32_overread (s : ReadMessageBuffer)
    (h : s.curMessageLenUnread < 4) :
    s.readUInt32 = .err "buffer overread" s := by
  unfold ReadMessageBuffer.readUInt32
  rw [if_pos (show s.overreads 4 from Or.inl (by exact_mod_cast h))]

theorem readUUID_overread (s : ReadMessageBuffer)
    (h : s.curMessageLenUnread < 16) :
    s.readUUID = .err "buffer overread" s := by
  unfold ReadMessageBuffer.readUUID
  exact readBuffer_overread s 16 (by exact_mod_cast h)

theorem readString_overread_prefix (s : ReadMessageBuffer)
    (h : s.curMessageLenUnread < 4) :
    s.readString = .err "buffer overread" s := by
  unfold ReadMessageBuffer.readString
  rw [readInt32_overread s h]

/-- C5 (amended): every fixed-size read primitive whose size exceeds the
unread count of the current message raises BufferError before touching any
cursor state (the returned error state is the input state unchanged); for
`readString` this holds for its four-byte length read, but a `readString`
whose decoded body length exceeds the remaining unread bytes raises only
after the length prefix has been consumed (see the counterexample). -/
theorem read_primitives_overread_no_advance (s : ReadMessageBuffer)
    (size : Nat) :
    (s.curMessageLenUnread < (size : Int) →
      s.readBuffer size = .err "buffer overread" s) ∧
    (s.curMessageLenUnread < 1 → s.readChar = .err "buffer overread" s) ∧
    (s.curMessageLenUnread < 2 → s.readInt16 = .err "buffer overread" s) ∧
    (s.curMessageLenUnread < 4 → s.readInt32 = .err "buffer overread" s) ∧
    (s.curMessageLenUnread < 2 → s.readUInt16 = .err "buffer overread" s) ∧
    (s.curMessageLenUnread < 4 → s.readUInt32 = .err "buffer overread" s) ∧
    (s.curMessageLenUnread < 16 → s.readUUID = .err "buffer overread" s) ∧
    (s.curMessageLenUnread < 4 → s.readString = .err "buffer overread" s) :=
  ⟨readBuffer_overread s size, readChar_overread s, readInt16_overread s,
   readInt32_overread s, readUInt16_overread s, readUInt32_overread s,
   readUUID_overread s, readString_overread_prefix s⟩

/-- C5 (witness): the overread theorem applied to the fresh buffer, whose
current message has no unread bytes. -/
theorem read_primitives_overread_witness :
    ReadMessageBuffer.new.readBuffer 5
        = .err "buffer overread" ReadMessageBuffer.new ∧
    ReadMessageBuffer.new.readChar
        = .err "buffer overread" ReadMessageBuffer.new ∧
    ReadMessageBuffer.new.readString
        = .err "buffer overread" ReadMessageBuffer.new :=
  ⟨(read_primitives_overread_no_advance ReadMessageBuffer.new 5).1
      (by decide),
   (read_primitives_overread_no_advance ReadMessageBuffer.new 5).2.1
      (by decide),
   (read_primitives_overread_no_advance ReadMessageBuffer.new 5).2.2.2.2.2.2.2
      (by decide)⟩

/-- A ready message of total length 8 whose four unread payload bytes are
`00 00 00 05`: a length-5 string is announced but no string bytes follow. -/
def readStringOverreadState : ReadMessageBuffer :=
  ⟨[], 4, some [0, 0, 0, 5], 0, 4, 83, 8, 4, true⟩

/-- C5 (counterexample): calling `readString` in a state whose requested
size (4-byte prefix plus announced body of 5) exceeds the 4 unread bytes
raises BufferError, but the cursor state is NOT left unchanged: the four
length-prefix bytes have been consumed (`pos0` 0 → 4, `len` 4 → 0, unread
4 → 0). -/
theorem readString_overread_counterexample :
    readStringOverreadState.readString
      = .err "buffer overread" ⟨[], 0, some [0, 0, 0, 5], 4, 4, 83, 8, 0, true⟩
    ∧ (⟨[], 0, some [0, 0, 0, 5], 4, 4, 83, 8, 0, true⟩ : ReadMessageBuffer)
      ≠ readStringOverreadState :=
  ⟨by decide, by decide⟩

/-! ### Claim C6: sticky config fields and read-time defaults -/

/-- C6: for each resolved-config field, a first source that supplies a
non-null value sets the field (to its validated form) and records that
source's label; a second source applied afterwards returns false and
changes nothing, so the earlier source wins.  The defaults `localhost`,
`5656`, `edgedb`, `edgedb` are produced by the getters exactly when the
field is still unset. -/
theorem config_fields_sticky_and_defaults (c : ResolvedConnectConfig)
    (s1 s2 : String) :
    (∀ a b av, c._host = none → validateHost a = .ok av →
      ∃ c1, c.setHost (some a) s1 = .ok (true, c1) ∧
        c1._host = some av ∧ c1._hostSource = some s1 ∧
        c1.setHost (some b) s2 = .ok (false, c1)) ∧
    (∀ a b av, c._port = none → parseValidatePort a = .ok av →
      ∃ c1, c.setPort (some a) s1 = .ok (true, c1) ∧
        c1._port = some av ∧ c1._portSource = some s1 ∧
        c1.setPort (some b) s2 = .ok (false, c1)) ∧
    (∀ a b, c._database = none → a ≠ "" →
      ∃ c1, c.setDatabase (some a) s1 = .ok (true, c1) ∧
        c1._database = some a ∧ c1._databaseSource = some s1 ∧
        c1.setDatabase (some b) s2 = .ok (false, c1)) ∧
    (∀ a b, c._user = none → a ≠ "" →
      ∃ c1, c.setUser (some a) s1 = .ok (true, c1) ∧
        c1._user = some a ∧ c1._userSource = some s1 ∧
        c1.setUser (some b) s2 = .ok (false, c1)) ∧
    (∀ a b, c._password = none →
      ∃ c1, c.setPassword (some a) s1 = .ok (true, c1) ∧
        c1._password = some a ∧ c1._passwordSource = some s1 ∧
        c1.setPassword (some b) s2 = .ok (false, c1)) ∧
    (∀ a b, c._tlsCAData = none →
      ∃ c1, c.setTlsCAData (some a) s1 = .ok (true, c1) ∧
        c1._tlsCAData = some a ∧ c1._tlsCADataSource = some s1 ∧
        c1.setTlsCAData (some b) s2 = .ok (false, c1)) ∧
    (∀ (a b : Bool), c._tlsVerifyHostname = none →
      ∃ c1, c.setTlsVerifyHostname (some (.inl a)) s1 = .ok (true, c1) ∧
        c1._tlsVerifyHostname = some a ∧
        c1._tlsVerifyHostnameSource = some s1 ∧
        c1.setTlsVerifyHostname (some (.inl b)) s2 = .ok (false, c1)) ∧
    (c._host = none → c.address.1 = "localhost") ∧
    (∀ h, c._host = some h → c.address.1 = h) ∧
    (c._port = none → c.address.2 = 5656) ∧
    (∀ p, c._port = some p → c.address.2 = p) ∧
    (c._database = none → c.database = "edgedb") ∧
    (∀ d, c._database = some d → c.database = d) ∧
    (c._user = none → c.user = "edgedb") ∧
    (∀ u, c._user = some u → c.user = u) := by
  refine ⟨?_, ?_, ?_, ?_, ?_, ?_, ?_, ?_, ?_, ?_, ?_, ?_, ?_, ?_, ?_⟩
  · intro a b av hnone hval
    refine ⟨{ c with _hostSource := some s1, _host := some av }, ?_, rfl, rfl, ?_⟩
    · simp [ResolvedConnectConfig.setHost, hnone, hval]
    · simp [ResolvedConnectConfig.setHost]
  · intro a b av hnone hval
    refine ⟨{ c with _portSource := some s1, _port := some av }, ?_, rfl, rfl, ?_⟩
    · simp [ResolvedConnectConfig.setPort, hnone, hval]
    · simp [ResolvedConnectConfig.setPort]
  · intro a b hnone hval
    refine ⟨{ c with _databaseSource := some s1,
                     _database := some a }, ?_, rfl, rfl, ?_⟩
    · simp [ResolvedConnectConfig.setDatabase, hnone, hval]
    · simp [ResolvedConnectConfig.setDatabase]
  · intro a b hnone hval
    refine ⟨{ c with _userSource := some s1, _user := some a }, ?_, rfl, rfl, ?_⟩
    · simp [ResolvedConnectConfig.setUser, hnone, hval]
    · simp [ResolvedConnectConfig.setUser]
  · intro a b hnone
    refine ⟨{ c with _passwordSource := some s1,
                     _password := some a }, ?_, rfl, rfl, ?_⟩
    · simp [ResolvedConnectConfig.setPassword, hnone]
    · simp [ResolvedConnectConfig.setPassword]
  · intro a b hnone
    refine ⟨{ c with _tlsCADataSource := some s1,
                     _tlsCAData := some a }, ?_, rfl, rfl, ?_⟩
    · simp [ResolvedConnectConfig.setTlsCAData, hnone]
    · simp [ResolvedConnectConfig.setTlsCAData]
  · intro a b hnone
    refine ⟨{ c with _tlsVerifyHostnameSource := some s1,
                     _tlsVerifyHostname := some a }, ?_, rfl, rfl, ?_⟩
    · simp [ResolvedConnectConfig.setTlsVerifyHostname, hnone]
    · simp [ResolvedConnectConfig.setTlsVerifyHostname]
  · intro hnone
    simp [ResolvedConnectConfig.address, hnone]
  · intro h hsome
    simp [ResolvedConnectConfig.address, hsome]
  · intro hnone
    simp [ResolvedConnectConfig.address, hnone]
  · intro p hsome
    simp [ResolvedConnectConfig.address, hsome]
  · intro hnone
    simp [ResolvedConnectConfig.database, hnone]
  · intro d hsome
    simp [ResolvedConnectConfig.database, hsome]
  · intro hnone
    simp [ResolvedConnectConfig.user, hnone]
  · intro u hsome
    simp [ResolvedConnectConfig.user, hsome]

/-- C6 (witness): the stickiness theorem at concrete fields and sources. -/
theorem config_fields_sticky_witness :
    (∃ c1, ResolvedConnectConfig.new.setHost (some "h") "first source"
        = .ok (true, c1) ∧
      c1._host = some "h" ∧ c1._hostSource = some "first source" ∧
      c1.setHost (some "later") "second source" = .ok (false, c1)) ∧
    (∃ c1, ResolvedConnectConfig.new.setPort (some (.inl "1234"))
          "first source" = .ok (true, c1) ∧
      c1._port = some 1234 ∧ c1._portSource = some "first source" ∧
      c1.setPort (some (.inr 9999)) "second source" = .ok (false, c1)) ∧
    ResolvedConnectConfig.new.address = ("localhost", 5656) ∧
    ResolvedConnectConfig.new.database = "edgedb" ∧
    ResolvedConnectConfig.new.user = "edgedb" := by
  have h := config_fields_sticky_and_defaults ResolvedConnectConfig.new
    "first source" "second source"
  refine ⟨h.1 "h" "later" "h" rfl (by decide),
    h.2.1 (.inl "1234") (.inr 9999) 1234 rfl (by decide), ?_, ?_, ?_⟩
  · have ha := h.2.2.2.2.2.2.2.1 rfl
    have hb := h.2.2.2.2.2.2.2.2.2.1 rfl
    cases hadr : ResolvedConnectConfig.new.address with
    | mk x y =>
      rw [hadr] at ha hb
      simp at ha hb
      rw [ha, hb]
  · exact h.2.2.2.2.2.2.2.2.2.2.2.1 rfl
  · exact h.2.2.2.2.2.2.2.2.2.2.2.2.2.1 rfl

/-! ### Claim C7: the compound-options rule -/

/-- A trivial external environment used by concrete instantiations. -/
def trivialExt : ExtEnv :=
  ⟨fun _ => none, fun _ => .error "filesystem unavailable",
   fun _ => .error "credentials unavailable", fun s => s, fun s => s,
   fun _ => false⟩

/-- C7: whenever two or more of dsn, instanceName, credentialsFile and
host-or-port are given to one precedence level, `resolveConfigOptions`
raises; in particular `parseConnectArguments` on a dsn together with a
host raises the error whose message starts with the literal
`Cannot have more than one`. -/
theorem compound_options_errors (ext : ExtEnv) (rc : ResolvedConnectConfig)
    (config : CfgOptions) (sources : CfgSources) (msg : String)
    (h2 : 2 ≤ ([config.dsn.isSome, config.instanceName.isSome,
        config.credentialsFile.isSome,
        config.host.isSome || config.port.isSome].filter
          fun b => b = true).length) :
    (∃ e, resolveConfigOptions ext rc config sources msg = .error e) ∧
    (∀ ext2 projectDir, ∃ suffix,
      parseConnectArguments ext2 { dsn := some "edgedb://h", host := some "x" }
          projectDir
        = .error ("Cannot have more than one" ++ suffix)) := by
  constructor
  · cases h1 : rc.setDatabase config.database sources.database with
    | error e => exact ⟨e, by simp [resolveConfigOptions, h1]⟩
    | ok p1 =>
      obtain ⟨u1, rc1⟩ := p1
      cases hu : rc1.setUser config.user sources.user with
      | error e => exact ⟨e, by simp [resolveConfigOptions, h1, hu]⟩
      | ok p2 =>
        obtain ⟨u2, rc2⟩ := p2
        cases hp : rc2.setPassword config.password sources.password with
        | error e => exact ⟨e, by simp [resolveConfigOptions, h1, hu, hp]⟩
        | ok p3 =>
          obtain ⟨u3, rc3⟩ := p3
          cases hca : ResolvedConnectConfig.setTlsCAFile ext rc3
              config.tlsCAFile sources.tlsCAFile with
          | error e =>
            exact ⟨e, by simp [resolveConfigOptions, h1, hu, hp, hca]⟩
          | ok p4 =>
            obtain ⟨u4, rc4⟩ := p4
            cases hvh : rc4.setTlsVerifyHostname config.tlsVerifyHostname
                sources.tlsVerifyHostname with
            | error e =>
              exact ⟨e, by simp [resolveConfigOptions, h1, hu, hp, hca, hvh]⟩
            | ok p5 =>
              obtain ⟨u5, rc5⟩ := p5
              refine ⟨msg, ?_⟩
              simp only [resolveConfigOptions, h1, hu, hp, hca, hvh]
              rw [if_pos (by omega)]
  · intro ext2 projectDir
    exact ⟨" of the following connection options: dsnOrInstanceName, " ++
      "credentialsFile or host/port", rfl⟩

/-- C7 (witness): the compound rule at a concrete conflicting option set. -/
theorem compound_options_errors_witness :
    ∃ e, resolveConfigOptions trivialExt ResolvedConnectConfig.new
      { dsn := some "edgedb://h", host := some "x" } {} "compound conflict"
      = .error e :=
  (compound_options_errors trivialExt ResolvedConnectConfig.new
    { dsn := some "edgedb://h", host := some "x" } {} "compound conflict"
    (by decide)).1

/-! ### Claim C8: resolving a full DSN -/

/-- C8: resolving the single option `dsn = edgedb://u:p@h:1234/db` yields
address `(h, 1234)`, user `u`, password `p`, and database `db` with the
URL path's leading slash stripped — for every external environment and
project directory, neither of which is consulted. -/
theorem dsn_parse_concrete (ext : ExtEnv) (projectDir : Option String) :
    (parseConnectArguments ext { dsn := some "edgedb://u:p@h:1234/db" }
        projectDir).map
      (fun n => (n.connectionParams.address, n.connectionParams.user,
        n.connectionParams.password, n.connectionParams.database))
      = .ok (("h", 1234), "u", some "p", "db") := rfl

/-! ### Claim C9: the AuthenticationRequest frame -/

/-- The wire form of a protocol string: 32-bit byte length, then bytes. -/
def wireStr (s : String) : List Nat :=
  int32BEBytesI ((strBytes s).length : Int) ++ strBytes s

/-- C9: for every client connection configuration, the bytes `connect`
writes before reading anything parse into exactly two frames — the
ClientHandshake (tag `V`) and then the AuthenticationRequest, whose tag is
`0` (48) and whose payload is the user string followed by the database
string, both `edgedb`; and `edgedb` is exactly the resolved user and
database of every configuration that leaves them unset (the client config
cannot set them). -/
theorem client_handshake_second_frame (_cfg : ClientConnectConfig) :
    clientHandshakeFrames = .ok
      [(86, [0, 1, 0, 0, 0, 0]),
       (48, wireStr "edgedb" ++ wireStr "edgedb")] ∧
    (∀ rc : ResolvedConnectConfig, rc._user = none → rc.user = "edgedb") ∧
    (∀ rc : ResolvedConnectConfig, rc._database = none →
      rc.database = "edgedb") := by
  refine ⟨by decide, ?_, ?_⟩
  · intro rc h
    simp [ResolvedConnectConfig.user, h]
  · intro rc h
    simp [ResolvedConnectConfig.database, h]

/-- C9 (witness): the handshake theorem at the empty client config and at
the fresh resolved config. -/
theorem client_handshake_second_frame_witness :
    ResolvedConnectConfig.new.user = "edgedb" ∧
    ResolvedConnectConfig.new.database = "edgedb" :=
  ⟨(client_handshake_second_frame ⟨none, none⟩).2.1
      ResolvedConnectConfig.new rfl,
   (client_handshake_second_frame ⟨none, none⟩).2.2
      ResolvedConnectConfig.new rfl⟩

/-! ### Claim C10: server settings are sticky -/

theorem objGet_foldl_init (l : List (String × String)) (k : String)
    (init : Option String) :
    l.foldl (fun acc p => if p.1 = k then some p.2 else acc) init
      = match l.foldl (fun acc p => if p.1 = k then some p.2 else acc) none
          with
        | some v => some v
        | none => init := by
  induction l generalizing init with
  | nil => simp
  | cons p t ih =>
    simp only [List.foldl_cons]
    rw [ih, ih (if p.1 = k then some p.2 else none)]
    by_cases hp : p.1 = k
    · cases hfnt : t.foldl (fun acc p => if p.1 = k then some p.2 else acc)
        none <;> simp [hp, hfnt]
    · cases hfnt : t.foldl (fun acc p => if p.1 = k then some p.2 else acc)
        none <;> simp [hp, hfnt]

/-- C10: a key already present in the resolved config's server settings
keeps its value across a later `addServerSettings` call: the merge spreads
the new settings first and the existing entries over them, so the earlier
(higher-precedence) entry wins. -/
theorem serverSettings_sticky (c : ResolvedConnectConfig)
    (settings : List (String × String)) (k v : String)
    (h : objGet c.serverSettings k = some v) :
    objGet (c.addServerSettings settings).serverSettings k = some v := by
  unfold ResolvedConnectConfig.addServerSettings objGet
  rw [List.foldl_append]
  rw [objGet_foldl_init]
  unfold objGet at h
  rw [h]

/-- C10 (witness): stickiness of a concrete server-settings entry. -/
theorem serverSettings_sticky_witness :
    objGet ((({ serverSettings := [("search_path", "alpha")] } :
        ResolvedConnectConfig).addServerSettings
          [("search_path", "beta")]).serverSettings) "search_path"
      = some "alpha" :=
  serverSettings_sticky { serverSettings := [("search_path", "alpha")] }
    [("search_path", "beta")] "search_path" "alpha" (by decide)

/-- C2 (witness): the amended fetchOne theorem at a concrete row list. -/
theorem fetchOne_returns_first_row_witness :
    fetchOneModel ([7].map ServerMsg.dataRow ++
        [ServerMsg.commandComplete "SELECT 1", ServerMsg.readyForCommand])
      = .ok (some 7) :=
  fetchOne_returns_first_row [7] "SELECT 1"

/-- C8 (witness): the DSN theorem at a concrete environment. -/
theorem dsn_parse_concrete_witness :
    (parseConnectArguments trivialExt { dsn := some "edgedb://u:p@h:1234/db" }
        none).map
      (fun n => (n.connectionParams.address, n.connectionParams.user,
        n.connectionParams.password, n.connectionParams.database))
      = .ok (("h", 1234), "u", some "p", "db") :=
  dsn_parse_concrete trivialExt none

/-! ### Claim C1: chunk-splitting invariance of frame assembly

The claimed invariance does not hold in the code as written: in
`__readBufferCopy` (buffer.ts) the calls `buf0.copy(ret, retPos,
this.pos0, nread)` and `buf0.copy(ret, retPos, this.pos0, size)` pass a
byte COUNT where Node's `Buffer.copy` expects `sourceEnd`, so each step
copies the region `[pos0, nread)` (resp. `[pos0, size)`) instead of the
intended `[pos0, pos0 + nread)`.  `retPos`, `pos0` and `len` still
advance by the full count, leaving `Buffer.allocUnsafe` garbage in the
skipped positions whenever `pos0 > 0` (the faithful model below writes 0
for those unwritten bytes).  Consequently the bytes a consumed message
carries depend on how the stream was cut into chunks.

The development therefore has two parts.  The faithful definitions
(`ReadMessageBuffer.readBufferCopy` and everything built on it) model the
code as written, and concrete evaluation exhibits the divergence on the
claim's own 1/2/7/5 scenario.  A second pipeline, each definition
suffixed `Patched`, differs only in passing `sourceStart + length` as
`sourceEnd`; for it the claimed invariance is proved in full: abstract a
buffer state to the byte stream it still holds, prove that each operation
acts on that stream the way a direct parser would, and show by induction
over the chunk list that the feed/takeMessage/consumeMessage cycle emits
exactly the logical frames of the stream, however the stream was cut into
(nonempty) chunks. -/

/-- The unconsumed byte stream held by the buffer: the unread tail of the
active chunk followed by the queued chunks. -/
def ReadMessageBuffer.stream (s : ReadMessageBuffer) : List Nat :=
  ((s.buf0.getD []).drop s.pos0) ++ s.bufs.flatten

/-- Well-formedness of a buffer state: `len` counts the stream, the
cursor of the active chunk is in range, and no queued chunk is empty. -/
structure ReadMessageBuffer.WF (s : ReadMessageBuffer) : Prop where
  len_eq : s.len = s.stream.length
  pos_le : s.pos0 ≤ s.len0
  len0_eq : s.len0 = (s.buf0.getD []).length
  bufs_ne : ∀ c ∈ s.bufs, c ≠ []
  buf0_none : s.buf0 = none → s.bufs = []

/-- `a` is a prefix of `b`. -/
def prefixOf (a b : List Nat) : Prop := ∃ t, a ++ t = b

theorem prefixOf_take (a b : List Nat) (h : prefixOf a b) (k : Nat)
    (hk : k ≤ a.length) : a.take k = b.take k := by
  obtain ⟨t, ht⟩ := h
  rw [← ht, List.take_append_of_le_length hk]

theorem prefixOf_cancel (a b c : List Nat) (h : prefixOf (a ++ b) (a ++ c)) :
    prefixOf b c := by
  obtain ⟨t, ht⟩ := h
  have ht2 : a ++ (b ++ t) = a ++ c := by
    rw [← List.append_assoc]
    exact ht
  exact ⟨t, List.append_cancel_left ht2⟩

theorem prefixOf_drop (a b : List Nat) (h : prefixOf a b) (k : Nat)
    (hk : k ≤ a.length) : prefixOf (a.drop k) (b.drop k) := by
  obtain ⟨t, ht⟩ := h
  exact ⟨t, by rw [← ht, List.drop_append_of_le_length hk]⟩

/-- How far into the current frame the header cursor has read. -/
inductive Hdr where
  | clean : Hdr
  | tagRead (t : Nat) : Hdr
  | hdrRead (t : Nat) (plen : Nat) : Hdr

/-- The bytes of the current frame already consumed from the stream and
recorded in the cursor. -/
def Hdr.pendingBytes : Hdr → List Nat
  | .clean => []
  | .tagRead t => [t]
  | .hdrRead t plen => t :: int32BEBytes (plen + 4)

/-- The cursor fields corresponding to a header state. -/
def Hdr.cursor : Hdr → ReadMessageBuffer → Prop
  | .clean, s => s.curMessageType = 0 ∧ s.curMessageLen = 0 ∧
      s.curMessageLenUnread = 0 ∧ s.curMessageReady = false
  | .tagRead t, s => s.curMessageType = t ∧ t ≠ 0 ∧ s.curMessageLen = 0 ∧
      s.curMessageLenUnread = 0 ∧ s.curMessageReady = false
  | .hdrRead t plen, s => s.curMessageType = t ∧ t ≠ 0 ∧
      s.curMessageLen = (plen : Int) + 4 ∧
      s.curMessageLenUnread = (plen : Int) ∧ s.curMessageReady = false ∧
      plen + 4 < 2 ^ 31

/-- A state in which a further `takeMessage` cannot make progress. -/
def Hdr.stopped : Hdr → ReadMessageBuffer → Prop
  | .clean, s => s.len = 0
  | .tagRead _, s => s.len < 4
  | .hdrRead _ plen, s => s.len < plen

theorem pendingBytes_length_le (H : Hdr) : H.pendingBytes.length ≤ 5 := by
  cases H <;> simp [Hdr.pendingBytes, int32BEBytes]

/-- `feed` with a nonempty chunk appends the chunk to the stream and
leaves the message cursor alone. -/
theorem feed_spec (s : ReadMessageBuffer) (c : List Nat) (h : s.WF)
    (hc : c ≠ []) :
    ((s.feed c).2).stream = s.stream ++ c ∧
    ((s.feed c).2).len = s.len + c.length ∧
    ((s.feed c).2).curMessageType = s.curMessageType ∧
    ((s.feed c).2).curMessageLen = s.curMessageLen ∧
    ((s.feed c).2).curMessageLenUnread = s.curMessageLenUnread ∧
    ((s.feed c).2).curMessageReady = s.curMessageReady ∧
    ((s.feed c).2).WF := by
  unfold ReadMessageBuffer.feed
  by_cases hb : s.buf0 = none ∨ (s.pos0 = s.len0 ∧ s.bufs = [])
  · rw [if_pos hb]
    have hbufs : s.bufs = [] := by
      rcases hb with hb | hb
      · exact h.buf0_none hb
      · exact hb.2
    have hstream : s.stream = [] := by
      unfold ReadMessageBuffer.stream
      rcases hb with hb | hb
      · have h0 : s.len0 = 0 := by rw [h.len0_eq, hb]; rfl
        have hp0 : s.pos0 = 0 := by have := h.pos_le; omega
        rw [hb, hbufs]
        simp
      · rw [hb.1, h.len0_eq, hbufs]
        simp
    have hlen : s.len = 0 := by rw [h.len_eq, hstream]; rfl
    refine ⟨?_, ?_, rfl, rfl, rfl, rfl, ?_⟩
    · show ((some c).getD []).drop 0 ++ s.bufs.flatten = s.stream ++ c
      rw [hbufs, hstream]
      simp
    · simp [hlen]
    · exact ⟨by simp [ReadMessageBuffer.stream, hbufs],
        by simp, by simp, by simp [hbufs], by simp⟩
  · rw [if_neg hb]
    refine ⟨?_, rfl, rfl, rfl, rfl, rfl, ?_⟩
    · simp [ReadMessageBuffer.stream]
    · refine ⟨?_, h.pos_le, h.len0_eq, ?_, ?_⟩
      · simp [ReadMessageBuffer.stream]
        have := h.len_eq
        simp [ReadMessageBuffer.stream] at this
        omega
      · intro d hd
        simp at hd
        rcases hd with hd | hd
        · exact h.bufs_ne d hd
        · rw [hd]; exact hc
      · intro hnone
        simp at hnone
        exact absurd (Or.inl hnone) hb

/-- `ensureFirstBuf` on a well-formed state with a nonempty stream
succeeds, preserves the stream, the length and the cursor, and leaves the
active chunk with bytes to read. -/
theorem ensureFirstBuf_ok (s : ReadMessageBuffer) (h : s.WF)
    (hne : s.stream ≠ []) :
    ∃ b s', s.ensureFirstBuf = .ok b s' ∧
      s'.stream = s.stream ∧ s'.len = s.len ∧
      s'.bufs.length ≤ s.bufs.length ∧
      s'.curMessageType = s.curMessageType ∧
      s'.curMessageLen = s.curMessageLen ∧
      s'.curMessageLenUnread = s.curMessageLenUnread ∧
      s'.curMessageReady = s.curMessageReady ∧
      s'.WF ∧ s'.buf0 = some b ∧ s'.pos0 < s'.len0 ∧ s'.len0 = b.length := by
  unfold ReadMessageBuffer.ensureFirstBuf
  by_cases hp : s.pos0 = s.len0
  · rw [if_pos hp]
    have hdrop : (s.buf0.getD []).drop s.pos0 = [] := by
      apply List.drop_eq_nil_of_le
      rw [← h.len0_eq, ← hp]
    cases hq : s.bufs with
    | nil =>
      exfalso
      apply hne
      unfold ReadMessageBuffer.stream
      rw [hdrop, hq]
      rfl
    | cons b rest =>
      have hbne : b ≠ [] := h.bufs_ne b (by rw [hq]; exact List.mem_cons_self b rest)
      have hblen : 0 < b.length := List.length_pos.mpr hbne
      refine ⟨b, ⟨rest, s.len, some b, 0, b.length, s.curMessageType,
        s.curMessageLen, s.curMessageLenUnread, s.curMessageReady⟩,
        ?_, ?_, rfl, by simp, rfl, rfl, rfl, rfl, ?_, rfl,
        by simpa using hblen, rfl⟩
      · exact if_neg (by omega)
      · unfold ReadMessageBuffer.stream
        simp [hq, hdrop]
      · refine ⟨?_, by simp, rfl, ?_, by simp⟩
        · have := h.len_eq
          unfold ReadMessageBuffer.stream at this ⊢
          simp [hq, hdrop] at this ⊢
          omega
        · intro d hd
          exact h.bufs_ne d (by rw [hq]; exact List.mem_cons_of_mem b hd)
  · rw [if_neg hp]
    have hlt : s.pos0 < s.len0 := lt_of_le_of_ne h.pos_le hp
    cases hb : s.buf0 with
    | none =>
      exfalso
      have h0 : s.len0 = 0 := by rw [h.len0_eq, hb]; rfl
      omega
    | some b =>
      have hblen : 0 < b.length := by
        have := h.len0_eq
        rw [hb] at this
        simp at this
        omega
      refine ⟨b, s, ?_, rfl, rfl, le_refl _, rfl, rfl, rfl, rfl, h, hb, hlt,
        ?_⟩
      · exact if_neg (by omega)
      · have := h.len0_eq
        rw [hb] at this
        simpa using this

/-- `readBufferCopy` with enough fuel consumes exactly `size` bytes of the
stream, returning them appended to the accumulator. -/
theorem readBufferCopyPatched_ok (fuel : Nat) :
    ∀ (s : ReadMessageBuffer) (b : List Nat) (size : Nat) (acc : List Nat),
    s.WF → s.buf0 = some b → 0 < size → size ≤ s.stream.length →
    s.bufs.length < fuel →
    ∃ s', ReadMessageBuffer.readBufferCopyPatched fuel b size s acc
        = .ok (acc ++ s.stream.take size) s' ∧
      s'.stream = s.stream.drop size ∧ s'.len = s.len - size ∧
      s'.curMessageType = s.curMessageType ∧
      s'.curMessageLen = s.curMessageLen ∧
      s'.curMessageLenUnread = s.curMessageLenUnread ∧
      s'.curMessageReady = s.curMessageReady ∧ s'.WF := by
  induction fuel with
  | zero =>
    intro s b size acc _ _ _ _ hf
    omega
  | succ fuel ih =>
    intro s b size acc hwf hb0 hpos hle hf
    have hb0get : s.buf0.getD [] = b := by rw [hb0]; rfl
    have hlen0 : s.len0 = b.length := by rw [hwf.len0_eq, hb0get]
    have hstr : s.stream = b.drop s.pos0 ++ s.bufs.flatten := by
      unfold ReadMessageBuffer.stream
      rw [hb0get]
    have hdplen : (b.drop s.pos0).length = s.len0 - s.pos0 := by
      simp [hlen0]
    unfold ReadMessageBuffer.readBufferCopyPatched
    by_cases hsplit : s.len0 < s.pos0 + size
    · rw [if_pos hsplit]
      have hslen : s.stream.length
          = (s.len0 - s.pos0) + s.bufs.flatten.length := by
        rw [hstr]
        simp [hdplen]
      have hnlt : s.len0 - s.pos0 < size := by
        have := hwf.pos_le
        omega
      split
      · rename_i hq
        exfalso
        rw [hq] at hslen
        simp at hslen
        omega
      · rename_i cbuf rest hq
        have hcne : cbuf ≠ [] :=
          hwf.bufs_ne cbuf (by rw [hq]; exact List.mem_cons_self _ _)
        have hclen : 0 < cbuf.length := List.length_pos.mpr hcne
        rw [if_neg (by omega)]
        have hflat : s.bufs.flatten = cbuf ++ rest.flatten := by
          rw [hq]
          simp
        have hdropn : s.stream.drop (s.len0 - s.pos0) = s.bufs.flatten := by
          rw [hstr, ← hdplen, List.drop_left]
        have htaken : s.stream.take (s.len0 - s.pos0) = b.drop s.pos0 := by
          rw [hstr, ← hdplen, List.take_left]
        have hwf2 : (⟨rest, s.len - (s.len0 - s.pos0), some cbuf, 0,
            cbuf.length, s.curMessageType, s.curMessageLen,
            s.curMessageLenUnread, s.curMessageReady⟩ :
              ReadMessageBuffer).WF := by
          refine ⟨?_, by simp, by simp [ReadMessageBuffer.stream], ?_,
            by simp⟩
          · show s.len - (s.len0 - s.pos0)
              = ((ReadMessageBuffer.stream _)).length
            unfold ReadMessageBuffer.stream
            simp only [Option.getD_some, List.drop_zero]
            have := hwf.len_eq
            rw [hq] at hslen
            simp at hslen ⊢
            omega
          · intro d hd
            exact hwf.bufs_ne d (by rw [hq]; exact List.mem_cons_of_mem _ hd)
        obtain ⟨s', hrun, hstream', hlen', ht', hl', hu', hr', hwf'⟩ :=
          ih _ cbuf (size - (s.len0 - s.pos0))
            (acc ++ (b.drop s.pos0).take (s.len0 - s.pos0)) hwf2 rfl
            (by omega)
            (by
              show size - (s.len0 - s.pos0) ≤
                ((ReadMessageBuffer.stream _)).length
              unfold ReadMessageBuffer.stream
              simp only [Option.getD_some, List.drop_zero]
              rw [hq] at hslen
              simp at hslen ⊢
              omega)
            (by
              show rest.length < fuel
              rw [hq] at hf
              simp at hf
              omega)
        refine ⟨s', ?_, ?_, ?_, ht', hl', hu', hr', hwf'⟩
        · rw [hrun]
          congr 1
          have hstr2 : (⟨rest, s.len - (s.len0 - s.pos0), some cbuf, 0,
              cbuf.length, s.curMessageType, s.curMessageLen,
              s.curMessageLenUnread, s.curMessageReady⟩ :
                ReadMessageBuffer).stream = s.stream.drop (s.len0 - s.pos0)
              := by
            rw [hdropn, hflat]
            unfold ReadMessageBuffer.stream
            simp
          rw [hstr2]
          rw [show size = (s.len0 - s.pos0) + (size - (s.len0 - s.pos0))
            by omega, List.take_add]
          rw [htaken]
          rw [show (s.len0 - s.pos0) + (size - (s.len0 - s.pos0))
              - (s.len0 - s.pos0) = size - (s.len0 - s.pos0) by omega]
          simp only [List.append_assoc]
          rw [List.take_of_length_le (le_of_eq hdplen)]
        · rw [hstream']
          have hstr2 : (⟨rest, s.len - (s.len0 - s.pos0), some cbuf, 0,
              cbuf.length, s.curMessageType, s.curMessageLen,
              s.curMessageLenUnread, s.curMessageReady⟩ :
                ReadMessageBuffer).stream = s.stream.drop (s.len0 - s.pos0)
              := by
            rw [hdropn, hflat]
            unfold ReadMessageBuffer.stream
            simp
          rw [hstr2, List.drop_drop]
          congr 1
          omega
        · rw [hlen']
          show s.len - (s.len0 - s.pos0) - (size - (s.len0 - s.pos0))
            = s.len - size
          have := hwf.len_eq
          omega
    · rw [if_neg hsplit]
      have hple := hwf.pos_le
      have hsle : size ≤ (b.drop s.pos0).length := by omega
      have hstreq : ((s.buf0.getD []).drop (s.pos0 + size))
          ++ s.bufs.flatten = s.stream.drop size := by
        rw [hb0get, hstr, List.drop_append_of_le_length hsle,
          List.drop_drop]
      refine ⟨⟨s.bufs, s.len - size, s.buf0, s.pos0 + size, s.len0,
        s.curMessageType, s.curMessageLen, s.curMessageLenUnread,
        s.curMessageReady⟩, ?_, hstreq, rfl, rfl, rfl, rfl, rfl, ?_⟩
      · rw [hstr, List.take_append_of_le_length hsle]
      · refine ⟨?_, by show s.pos0 + size ≤ s.len0; omega,
          hwf.len0_eq, hwf.bufs_ne, hwf.buf0_none⟩
        show s.len - size = _
        have h2 : (ReadMessageBuffer.stream
            (⟨s.bufs, s.len - size, s.buf0, s.pos0 + size, s.len0,
              s.curMessageType, s.curMessageLen, s.curMessageLenUnread,
              s.curMessageReady⟩ : ReadMessageBuffer))
            = s.stream.drop size := hstreq
        rw [h2, List.length_drop]
        have := hwf.len_eq
        omega

/-- `_readBuffer` on a well-formed state holding at least `size` bytes
returns the first `size` bytes of the stream and drops them, leaving the
message cursor alone. -/
theorem rawReadBufferPatched_ok (s : ReadMessageBuffer) (size : Nat) (h : s.WF)
    (hpos : 0 < size) (hle : size ≤ s.stream.length) :
    ∃ s', s.rawReadBufferPatched size = .ok (s.stream.take size) s' ∧
      s'.stream = s.stream.drop size ∧ s'.len = s.len - size ∧
      s'.curMessageType = s.curMessageType ∧
      s'.curMessageLen = s.curMessageLen ∧
      s'.curMessageLenUnread = s.curMessageLenUnread ∧
      s'.curMessageReady = s.curMessageReady ∧ s'.WF := by
  have hne : s.stream ≠ [] := by
    intro h0
    rw [h0] at hle
    simp at hle
    omega
  obtain ⟨b, s1, hens, hsstream, hslen, hbufsle, ht1, hl1, hu1, hr1,
    hwf1, hb0, hplt, hlen0b⟩ := ensureFirstBuf_ok s h hne
  have hb0get : s1.buf0.getD [] = b := by rw [hb0]; rfl
  have hstr1 : s1.stream = b.drop s1.pos0 ++ s1.bufs.flatten := by
    unfold ReadMessageBuffer.stream
    rw [hb0get]
  unfold ReadMessageBuffer.rawReadBufferPatched
  simp only [hens]
  rw [if_neg (by omega : ¬ size = 0)]
  by_cases hin : s1.pos0 + size < s1.len0
  · rw [if_pos hin]
    have hsle : size ≤ (b.drop s1.pos0).length := by
      rw [List.length_drop]
      omega
    have hstreq : ((s1.buf0.getD []).drop (s1.pos0 + size))
        ++ s1.bufs.flatten = s1.stream.drop size := by
      rw [hb0get, hstr1, List.drop_append_of_le_length hsle,
        List.drop_drop]
    refine ⟨⟨s1.bufs, s1.len - size, s1.buf0, s1.pos0 + size, s1.len0,
      s1.curMessageType, s1.curMessageLen, s1.curMessageLenUnread,
      s1.curMessageReady⟩, ?_, ?_, by rw [hslen], by rw [ht1],
      by rw [hl1], by rw [hu1], by rw [hr1], ?_⟩
    · rw [← hsstream, hstr1, List.take_append_of_le_length hsle]
    · rw [← hsstream]
      exact hstreq
    · refine ⟨?_, by show s1.pos0 + size ≤ s1.len0; omega,
        hwf1.len0_eq, hwf1.bufs_ne, hwf1.buf0_none⟩
      show s1.len - size = _
      have h2 : (ReadMessageBuffer.stream
          (⟨s1.bufs, s1.len - size, s1.buf0, s1.pos0 + size, s1.len0,
            s1.curMessageType, s1.curMessageLen, s1.curMessageLenUnread,
            s1.curMessageReady⟩ : ReadMessageBuffer))
          = s1.stream.drop size := hstreq
      rw [h2, List.length_drop]
      have := hwf1.len_eq
      omega
  · rw [if_neg hin]
    obtain ⟨s', hrun, hstream', hlen', ht', hl', hu', hr', hwf'⟩ :=
      readBufferCopyPatched_ok (s1.bufs.length + 1) s1 b size [] hwf1 hb0 hpos
        (by rw [hsstream]; exact hle) (by omega)
    refine ⟨s', ?_, ?_, ?_, ?_, ?_, ?_, ?_, hwf'⟩
    · rw [hrun, hsstream, List.nil_append]
    · rw [hstream', hsstream]
    · rw [hlen', hslen]
    · rw [ht', ht1]
    · rw [hl', hl1]
    · rw [hu', hu1]
    · rw [hr', hr1]

/-- Reading inside a dropped prefix: position `i` of `l.drop p ++ rest`
is position `p + i` of `l` while it stays inside `l`. -/
theorem getD_drop_append (l : List Nat) (p i : Nat) (rest : List Nat)
    (h : p + i < l.length) :
    ((l.drop p) ++ rest).getD i 0 = l.getD (p + i) 0 := by
  have hi : i < (l.drop p).length := by
    rw [List.length_drop]
    omega
  rw [List.getD_append _ _ _ _ hi, List.getD_eq_getElem _ _ hi,
    List.getD_eq_getElem _ _ h]
  simp [List.getElem_drop]

/-- `readUInt32BE` at an interior position equals the read at the start of
the corresponding dropped suffix. -/
theorem readUInt32BEAt_drop_append (l : List Nat) (p : Nat)
    (rest : List Nat) (h : p + 4 ≤ l.length) :
    readUInt32BEAt l p = readUInt32BEAt (l.drop p ++ rest) 0 := by
  unfold readUInt32BEAt
  rw [getD_drop_append l p 0 rest (by omega),
    getD_drop_append l p 1 rest (by omega),
    getD_drop_append l p 2 rest (by omega),
    getD_drop_append l p 3 rest (by omega)]
  norm_num

/-- `toInt32` is the identity below `2^31`. -/
theorem toInt32_small (n : Nat) (h : n < 2 ^ 31) : toInt32 n = n := by
  unfold toInt32
  rw [Nat.mod_eq_of_lt (by omega)]
  rw [if_pos h]

/-- The 32-bit big-endian encoding is injective below `2^32`. -/
theorem int32BEBytes_inj (m n : Nat) (hm : m < 2 ^ 32) (hn : n < 2 ^ 32)
    (h : int32BEBytes m = int32BEBytes n) : m = n := by
  have h1 := readUInt32BEAt_int32BEBytes_nil m
  have h2 := readUInt32BEAt_int32BEBytes_nil n
  rw [h] at h1
  rw [h1] at h2
  omega

/-- A frame occupies five header bytes plus its payload on the wire. -/
theorem Frame.bytes_length (f : Frame) :
    f.bytes.length = 5 + f.payload.length := by
  simp [Frame.bytes, int32BEBytes]
  omega

theorem framesBytes_cons (f : Frame) (fs : List Frame) :
    framesBytes (f :: fs) = f.bytes ++ framesBytes fs := by
  simp [framesBytes]

theorem framesBytes_length_ge (fs : List Frame) :
    5 * fs.length ≤ (framesBytes fs).length := by
  induction fs with
  | nil => simp [framesBytes]
  | cons f fs ih =>
    rw [framesBytes_cons]
    simp [Frame.bytes_length]
    omega

/-- A header state carries over to any state with the same cursor fields. -/
theorem Hdr.cursor_of_fields (H : Hdr) (s s2 : ReadMessageBuffer)
    (h : H.cursor s)
    (ht : s2.curMessageType = s.curMessageType)
    (hl : s2.curMessageLen = s.curMessageLen)
    (hu : s2.curMessageLenUnread = s.curMessageLenUnread)
    (hr : s2.curMessageReady = s.curMessageReady) : H.cursor s2 := by
  cases H with
  | clean =>
    exact ⟨by rw [ht, h.1], by rw [hl, h.2.1], by rw [hu, h.2.2.1],
      by rw [hr, h.2.2.2]⟩
  | tagRead t =>
    obtain ⟨h1, h2, h3, h4, h5⟩ := h
    exact ⟨by rw [ht, h1], h2, by rw [hl, h3], by rw [hu, h4],
      by rw [hr, h5]⟩
  | hdrRead t plen =>
    obtain ⟨h1, h2, h3, h4, h5, h6⟩ := h
    exact ⟨by rw [ht, h1], h2, by rw [hl, h3], by rw [hu, h4],
      by rw [hr, h5], h6⟩

theorem take_append_full (A B : List Nat) (n : Nat) (h : A.length = n) :
    (A ++ B).take n = A := by
  rw [← h, List.take_left]

theorem drop_append_full (A B : List Nat) (n : Nat) (h : A.length = n) :
    (A ++ B).drop n = B := by
  rw [← h, List.drop_left]

/-- The length-reading half of `takeMessagePatched`: when the stream starts with
the four length bytes of a frame of payload length `plen`, they are
consumed and recorded in the cursor, and the final full-frame test is
reached. -/
theorem takeMessageReadLenPatched_read4 (s : ReadMessageBuffer) (plen : Nat)
    (u : List Nat) (hwf : s.WF) (hmlen0 : s.curMessageLen = 0)
    (hplen : plen + 4 < 2 ^ 31)
    (hstream : s.stream = int32BEBytes (plen + 4) ++ u) :
    ∃ s2 : ReadMessageBuffer,
      s.takeMessageReadLenPatched = s2.takeMessageFinish ∧ s2.WF ∧
      s2.curMessageType = s.curMessageType ∧
      s2.curMessageLen = ((plen + 4 : Nat) : Int) ∧
      s2.curMessageLenUnread = ((plen + 4 : Nat) : Int) - 4 ∧
      s2.curMessageReady = s.curMessageReady ∧
      s2.stream = u ∧ s2.len = u.length := by
  have hstlen : s.stream.length = 4 + u.length := by
    rw [hstream]
    simp [int32BEBytes]
    omega
  have hslen : s.len = 4 + u.length := by rw [hwf.len_eq, hstlen]
  have hne : s.stream ≠ [] := by
    rw [hstream]
    simp [int32BEBytes]
  unfold ReadMessageBuffer.takeMessageReadLenPatched
  rw [if_pos hmlen0, if_neg (show ¬ s.len < 4 by omega)]
  obtain ⟨b, s1, hens, hsstream, hslen1, hbufsle, ht1, hl1, hu1, hr1,
    hwf1, hb0, hplt, hlen0b⟩ := ensureFirstBuf_ok s hwf hne
  simp only [hens]
  have hb0get : s1.buf0.getD [] = b := by rw [hb0]; rfl
  have hstr1 : s1.stream = b.drop s1.pos0 ++ s1.bufs.flatten := by
    unfold ReadMessageBuffer.stream
    rw [hb0get]
  by_cases hin : s1.pos0 + 4 < s1.len0
  · rw [if_pos hin]
    have hval : readUInt32BEAt b s1.pos0 = plen + 4 := by
      rw [readUInt32BEAt_drop_append b s1.pos0 s1.bufs.flatten (by omega),
        ← hstr1, hsstream, hstream, readUInt32BEAt_int32BEBytes]
      omega
    have hstA : (s1.buf0.getD []).drop (s1.pos0 + 4) ++ s1.bufs.flatten
        = u := by
      rw [hb0get]
      have h2 : (b.drop s1.pos0 ++ s1.bufs.flatten).drop 4 = u := by
        rw [← hstr1, hsstream, hstream,
          drop_append_full _ _ 4 (by simp [int32BEBytes])]
      rw [List.drop_append_of_le_length
        (by rw [List.length_drop]; omega)] at h2
      rw [List.drop_drop] at h2
      exact h2
    refine ⟨⟨s1.bufs, s1.len - 4, s1.buf0, s1.pos0 + 4, s1.len0,
      s1.curMessageType, ((plen + 4 : Nat) : Int),
      ((plen + 4 : Nat) : Int) - 4, s1.curMessageReady⟩, ?_,
      ?_, by rw [ht1], rfl, rfl, by rw [hr1], hstA, ?_⟩
    · rw [hval, toInt32_small _ hplen]
    · refine ⟨?_, by show s1.pos0 + 4 ≤ s1.len0; omega, hwf1.len0_eq,
        hwf1.bufs_ne, ?_⟩
      · show s1.len - 4 = _
        have h2 : (ReadMessageBuffer.stream ⟨s1.bufs, s1.len - 4, s1.buf0,
            s1.pos0 + 4, s1.len0, s1.curMessageType,
            ((plen + 4 : Nat) : Int), ((plen + 4 : Nat) : Int) - 4,
            s1.curMessageReady⟩) = u := hstA
        rw [h2]
        omega
      · intro hx
        have hx2 : s1.buf0 = none := hx
        rw [hb0] at hx2
        exact Option.noConfusion hx2
    · show s1.len - 4 = u.length
      omega
  · rw [if_neg hin]
    obtain ⟨s', hrun, hstream', hlen', ht', hl', hu', hr', hwf'⟩ :=
      rawReadBufferPatched_ok s1 4 hwf1 (by omega) (by rw [hsstream]; omega)
    simp only [hrun]
    have htake : s1.stream.take 4 = int32BEBytes (plen + 4) := by
      rw [hsstream, hstream,
        take_append_full _ _ 4 (by simp [int32BEBytes])]
    refine ⟨⟨s'.bufs, s'.len, s'.buf0, s'.pos0, s'.len0,
      s'.curMessageType, ((plen + 4 : Nat) : Int),
      ((plen + 4 : Nat) : Int) - 4, s'.curMessageReady⟩, ?_,
      ⟨hwf'.len_eq, hwf'.pos_le, hwf'.len0_eq, hwf'.bufs_ne,
        hwf'.buf0_none⟩,
      by rw [ht', ht1], rfl, rfl, by rw [hr', hr1], ?_, ?_⟩
    · rw [htake, readUInt32BEAt_int32BEBytes_nil,
        Nat.mod_eq_of_lt (by omega), toInt32_small _ hplen]
    · show s'.stream = u
      rw [hstream', hsstream, hstream,
        drop_append_full _ _ 4 (by simp [int32BEBytes])]
    · show s'.len = u.length
      rw [hlen', hslen1]
      omega

/-- `takeMessageReadLenPatched` when the whole frame is buffered: the header is
consumed and the message is marked ready. -/
theorem takeMessageReadLenPatched_complete (s : ReadMessageBuffer) (plen : Nat)
    (u : List Nat) (hwf : s.WF) (hmlen0 : s.curMessageLen = 0)
    (hplen : plen + 4 < 2 ^ 31)
    (hstream : s.stream = int32BEBytes (plen + 4) ++ u)
    (hge : plen ≤ u.length) :
    ∃ s2 : ReadMessageBuffer,
      s.takeMessageReadLenPatched = .ok true s2 ∧ s2.WF ∧
      s2.curMessageType = s.curMessageType ∧
      s2.curMessageLenUnread = (plen : Int) ∧
      s2.curMessageReady = true ∧ s2.stream = u := by
  obtain ⟨sB, heq, hwfB, htB, hlB, huB, hrB, hstB, hlenB⟩ :=
    takeMessageReadLenPatched_read4 s plen u hwf hmlen0 hplen hstream
  refine ⟨{ sB with curMessageReady := true }, ?_,
    ⟨hwfB.len_eq, hwfB.pos_le, hwfB.len0_eq, hwfB.bufs_ne,
      hwfB.buf0_none⟩,
    by rw [htB], by rw [huB]; push_cast; ring, rfl, hstB⟩
  rw [heq]
  unfold ReadMessageBuffer.takeMessageFinish
  rw [if_neg (show ¬ ((sB.len : Int) < sB.curMessageLenUnread) by
    rw [hlenB, huB]
    push_cast
    omega)]

/-- `takeMessageReadLenPatched` when the header is buffered but the payload is
not yet complete: the cursor records the header and the call reports that
no message is ready. -/
theorem takeMessageReadLenPatched_stop (s : ReadMessageBuffer) (plen : Nat)
    (u : List Nat) (hwf : s.WF) (hmlen0 : s.curMessageLen = 0)
    (hready : s.curMessageReady = false)
    (hplen : plen + 4 < 2 ^ 31)
    (hstream : s.stream = int32BEBytes (plen + 4) ++ u)
    (hlt : u.length < plen) :
    ∃ s2 : ReadMessageBuffer,
      s.takeMessageReadLenPatched = .ok false s2 ∧ s2.WF ∧
      s2.curMessageType = s.curMessageType ∧
      s2.curMessageLen = (plen : Int) + 4 ∧
      s2.curMessageLenUnread = (plen : Int) ∧
      s2.curMessageReady = false ∧ s2.stream = u ∧ s2.len = u.length := by
  obtain ⟨sB, heq, hwfB, htB, hlB, huB, hrB, hstB, hlenB⟩ :=
    takeMessageReadLenPatched_read4 s plen u hwf hmlen0 hplen hstream
  refine ⟨sB, ?_, hwfB, htB, by rw [hlB]; push_cast; ring,
    by rw [huB]; push_cast; ring, by rw [hrB, hready], hstB, hlenB⟩
  rw [heq]
  unfold ReadMessageBuffer.takeMessageFinish
  rw [if_pos (show (sB.len : Int) < sB.curMessageLenUnread by
    rw [hlenB, huB]
    push_cast
    omega)]

/-- `takeMessagePatched` forwards straight to the length step once a tag byte has
been recorded. -/
theorem takeMessagePatched_enter (s : ReadMessageBuffer)
    (hready : s.curMessageReady = false)
    (htype : s.curMessageType ≠ 0) :
    s.takeMessagePatched = s.takeMessageReadLenPatched := by
  unfold ReadMessageBuffer.takeMessagePatched
  rw [if_neg (show ¬ (s.curMessageReady = true) by rw [hready]; simp)]
  rw [if_neg htype]

/-- The tag-reading half of `takeMessagePatched`: with a clean cursor and a
nonempty stream, the first byte is consumed and recorded as the message
type, and control passes to the length step. -/
theorem takeMessagePatched_readTag (s : ReadMessageBuffer) (a : Nat)
    (w : List Nat) (hwf : s.WF) (hready : s.curMessageReady = false)
    (htype : s.curMessageType = 0) (hstream : s.stream = a :: w) :
    ∃ s2 : ReadMessageBuffer,
      s.takeMessagePatched = s2.takeMessageReadLenPatched ∧ s2.WF ∧
      s2.curMessageType = a ∧ s2.curMessageLen = s.curMessageLen ∧
      s2.curMessageLenUnread = s.curMessageLenUnread ∧
      s2.curMessageReady = false ∧ s2.stream = w ∧ s2.len = w.length := by
  have hslen : s.len = w.length + 1 := by
    rw [hwf.len_eq, hstream]
    simp
  have hne : s.stream ≠ [] := by rw [hstream]; simp
  obtain ⟨b, s1, hens, hsstream, hslen1, hbufsle, ht1, hl1, hu1, hr1,
    hwf1, hb0, hplt, hlen0b⟩ := ensureFirstBuf_ok s hwf hne
  have hb0get : s1.buf0.getD [] = b := by rw [hb0]; rfl
  have hstr1 : s1.stream = b.drop s1.pos0 ++ s1.bufs.flatten := by
    unfold ReadMessageBuffer.stream
    rw [hb0get]
  have htag : b.getD s1.pos0 0 = a := by
    have h0 : (b.drop s1.pos0 ++ s1.bufs.flatten).getD 0 0
        = b.getD (s1.pos0 + 0) 0 :=
      getD_drop_append b s1.pos0 0 s1.bufs.flatten (by omega)
    rw [← hstr1, hsstream, hstream] at h0
    simpa using h0.symm
  have hdrop1 : (s1.buf0.getD []).drop (s1.pos0 + 1) ++ s1.bufs.flatten
      = w := by
    rw [hb0get]
    have h2 : (b.drop s1.pos0 ++ s1.bufs.flatten).drop 1 = w := by
      rw [← hstr1, hsstream, hstream]
      rfl
    rw [List.drop_append_of_le_length
      (by rw [List.length_drop]; omega)] at h2
    rw [List.drop_drop] at h2
    exact h2
  unfold ReadMessageBuffer.takeMessagePatched
  rw [if_neg (show ¬ (s.curMessageReady = true) by rw [hready]; simp)]
  rw [if_pos htype, if_neg (show ¬ s.len < 1 by omega)]
  simp only [hens]
  refine ⟨⟨s1.bufs, s1.len - 1, s1.buf0, s1.pos0 + 1, s1.len0,
    a, s1.curMessageLen, s1.curMessageLenUnread, s1.curMessageReady⟩,
    ?_, ?_, rfl, by rw [hl1], by rw [hu1], by rw [hr1, hready],
    hdrop1, ?_⟩
  · rw [htag]
  · refine ⟨?_, by show s1.pos0 + 1 ≤ s1.len0; omega, hwf1.len0_eq,
      hwf1.bufs_ne, ?_⟩
    · show s1.len - 1 = _
      have h2 : (ReadMessageBuffer.stream ⟨s1.bufs, s1.len - 1, s1.buf0,
          s1.pos0 + 1, s1.len0, a, s1.curMessageLen,
          s1.curMessageLenUnread, s1.curMessageReady⟩) = w := hdrop1
      rw [h2]
      omega
    · intro hx
      have hx2 : s1.buf0 = none := hx
      rw [hb0] at hx2
      exact Option.noConfusion hx2
  · show s1.len - 1 = w.length
    omega

/-- `takeMessagePatched` when a whole frame heads the combined pending/stream
bytes: it reports a ready message whose cursor matches the frame. -/
theorem takeMessagePatched_complete (H : Hdr) (s : ReadMessageBuffer) (f : Frame)
    (t : List Nat) (hwf : s.WF) (hcur : H.cursor s) (hf : f.wellFormed)
    (hdec : H.pendingBytes ++ s.stream = f.bytes ++ t) :
    ∃ s2 : ReadMessageBuffer,
      s.takeMessagePatched = .ok true s2 ∧ s2.WF ∧
      s2.curMessageReady = true ∧ s2.curMessageType = f.tag ∧
      s2.curMessageLenUnread = (f.payload.length : Int) ∧
      s2.stream = f.payload ++ t := by
  obtain ⟨hftag, hftag256, hfplen⟩ := hf
  cases H with
  | clean =>
    obtain ⟨hc1, hc2, hc3, hc4⟩ := hcur
    have hstream : s.stream = f.tag ::
        (int32BEBytes (f.payload.length + 4) ++ (f.payload ++ t)) := by
      have h0 : s.stream = f.bytes ++ t := by
        simpa [Hdr.pendingBytes] using hdec
      rw [h0]
      simp [Frame.bytes]
    obtain ⟨sA, heqA, hwfA, htA, hlA, huA, hrA, hstA, hlenA⟩ :=
      takeMessagePatched_readTag s f.tag _ hwf hc4 hc1 hstream
    obtain ⟨s2, heq2, hwf2, ht2, hu2, hr2, hst2⟩ :=
      takeMessageReadLenPatched_complete sA f.payload.length (f.payload ++ t)
        hwfA (by rw [hlA, hc2]) hfplen hstA (by simp)
    exact ⟨s2, by rw [heqA, heq2], hwf2, hr2, by rw [ht2, htA], hu2,
      hst2⟩
  | tagRead tg =>
    obtain ⟨hc1, hc2, hc3, hc4, hc5⟩ := hcur
    have h0 : tg :: s.stream = f.tag ::
        (int32BEBytes (f.payload.length + 4) ++ (f.payload ++ t)) := by
      have hb : tg :: s.stream = f.bytes ++ t := by
        simpa [Hdr.pendingBytes] using hdec
      rw [hb]
      simp [Frame.bytes]
    injection h0 with h1 h2
    rw [takeMessagePatched_enter s hc5 (by rw [hc1]; exact hc2)]
    obtain ⟨s2, heq2, hwf2, ht2, hu2, hr2, hst2⟩ :=
      takeMessageReadLenPatched_complete s f.payload.length (f.payload ++ t)
        hwf hc3 hfplen h2 (by simp)
    exact ⟨s2, heq2, hwf2, hr2, by rw [ht2, hc1, h1], hu2, hst2⟩
  | hdrRead tg plen =>
    obtain ⟨hc1, hc2, hc3, hc4, hc5, hc6⟩ := hcur
    have h0 : tg :: (int32BEBytes (plen + 4) ++ s.stream) = f.tag ::
        (int32BEBytes (f.payload.length + 4) ++ (f.payload ++ t)) := by
      have hb := hdec
      simp only [Hdr.pendingBytes, List.cons_append,
        List.append_assoc] at hb
      rw [hb]
      simp [Frame.bytes]
    injection h0 with h1 h2
    obtain ⟨h4, h5⟩ := List.append_inj h2 (by simp [int32BEBytes])
    have hpe : plen = f.payload.length := by
      have := int32BEBytes_inj (plen + 4) (f.payload.length + 4)
        (by omega) (by omega) h4
      omega
    rw [takeMessagePatched_enter s hc5 (by rw [hc1]; exact hc2)]
    unfold ReadMessageBuffer.takeMessageReadLenPatched
    rw [if_neg (show ¬ s.curMessageLen = 0 by
      rw [hc3]; intro hx; omega)]
    unfold ReadMessageBuffer.takeMessageFinish
    rw [if_neg (show ¬ ((s.len : Int) < s.curMessageLenUnread) by
      rw [hc4, hwf.len_eq, h5]
      simp only [List.length_append]
      push_cast
      omega)]
    exact ⟨{ s with curMessageReady := true }, rfl,
      ⟨hwf.len_eq, hwf.pos_le, hwf.len0_eq, hwf.bufs_ne, hwf.buf0_none⟩,
      rfl, by rw [hc1, h1], by rw [hc4, hpe], h5⟩

/-- `takeMessagePatched` when the buffered bytes stop short of a whole frame: it
reports no message and the cursor records exactly the consumed header
prefix. -/
theorem takeMessagePatched_stop (H : Hdr) (s : ReadMessageBuffer) (r : List Nat)
    (hwf : s.WF) (hcur : H.cursor s)
    (hdec : H.pendingBytes ++ s.stream = r)
    (hpart : r = [] ∨ ∃ f : Frame, f.wellFormed ∧ prefixOf r f.bytes ∧
      r.length < f.bytes.length) :
    ∃ (s2 : ReadMessageBuffer) (H2 : Hdr),
      s.takeMessagePatched = .ok false s2 ∧ s2.WF ∧ H2.cursor s2 ∧
      H2.stopped s2 ∧ H2.pendingBytes ++ s2.stream = r := by
  cases H with
  | clean =>
    obtain ⟨hc1, hc2, hc3, hc4⟩ := hcur
    have hstream0 : s.stream = r := by
      simpa [Hdr.pendingBytes] using hdec
    by_cases hr0 : r = []
    · have hlen0 : s.len = 0 := by
        rw [hwf.len_eq, hstream0, hr0]
        rfl
      refine ⟨s, Hdr.clean, ?_, hwf, ⟨hc1, hc2, hc3, hc4⟩, hlen0,
        by simpa [Hdr.pendingBytes] using hstream0⟩
      unfold ReadMessageBuffer.takeMessagePatched
      rw [if_neg (show ¬ (s.curMessageReady = true) by rw [hc4]; simp)]
      rw [if_pos hc1, if_pos (show s.len < 1 by omega)]
    · obtain ⟨f, hf, hpre, hlenlt⟩ := hpart.resolve_left hr0
      obtain ⟨hftag, hftag256, hfplen⟩ := hf
      obtain ⟨tl, htl⟩ := hpre
      cases r with
      | nil => exact absurd rfl hr0
      | cons a r2 =>
        rw [show f.bytes = f.tag :: (int32BEBytes (f.payload.length + 4)
          ++ f.payload) by simp [Frame.bytes]] at htl
        simp only [List.cons_append] at htl
        injection htl with h1 h2
        obtain ⟨sA, heqA, hwfA, htA, hlA, huA, hrA, hstA, hlenA⟩ :=
          takeMessagePatched_readTag s a r2 hwf hc4 hc1 hstream0
        rw [heqA]
        by_cases hlen4 : r2.length < 4
        · refine ⟨sA, Hdr.tagRead a, ?_, hwfA,
            ⟨htA, by rw [h1]; omega, by rw [hlA, hc2],
              by rw [huA, hc3], hrA⟩,
            by show sA.len < 4
               rw [hlenA]
               exact hlen4,
            by simp only [Hdr.pendingBytes, List.cons_append,
                 List.nil_append]
               rw [hstA]⟩
          unfold ReadMessageBuffer.takeMessageReadLenPatched
          rw [if_pos (show sA.curMessageLen = 0 by rw [hlA, hc2])]
          rw [if_pos (show sA.len < 4 by rw [hlenA]; exact hlen4)]
        · have h4 : r2.take 4
              = int32BEBytes (f.payload.length + 4) := by
            have hcg := congrArg (fun l => List.take 4 l) h2
            simp only at hcg
            rw [List.take_append_of_le_length (by omega)] at hcg
            rw [take_append_full _ _ 4 (by simp [int32BEBytes])] at hcg
            exact hcg
          have hu : r2 = int32BEBytes (f.payload.length + 4)
              ++ r2.drop 4 := by
            rw [← h4, List.take_append_drop]
          have hulen : (r2.drop 4).length < f.payload.length := by
            have hb := Frame.bytes_length f
            simp at hlenlt
            rw [List.length_drop]
            omega
          obtain ⟨s2, heq2, hwf2, ht2, hl2, hu2, hr2b, hst2, hlen2⟩ :=
            takeMessageReadLenPatched_stop sA f.payload.length (r2.drop 4) hwfA
              (by rw [hlA, hc2]) hrA hfplen (by rw [hstA]; exact hu)
              hulen
          refine ⟨s2, Hdr.hdrRead a f.payload.length, heq2, hwf2,
            ⟨by rw [ht2, htA], by rw [h1]; omega, hl2, hu2, hr2b,
              hfplen⟩,
            by show s2.len < f.payload.length
               rw [hlen2]
               exact hulen,
            ?_⟩
          simp only [Hdr.pendingBytes, List.cons_append]
          rw [hst2, ← hu]
  | tagRead tg =>
    obtain ⟨hc1, hc2, hc3, hc4, hc5⟩ := hcur
    have hrdec : tg :: s.stream = r := by
      simpa [Hdr.pendingBytes] using hdec
    rw [takeMessagePatched_enter s hc5 (by rw [hc1]; exact hc2)]
    by_cases hlen4 : s.len < 4
    · refine ⟨s, Hdr.tagRead tg, ?_, hwf,
        ⟨hc1, hc2, hc3, hc4, hc5⟩, hlen4,
        by simpa [Hdr.pendingBytes] using hrdec⟩
      unfold ReadMessageBuffer.takeMessageReadLenPatched
      rw [if_pos hc3, if_pos hlen4]
    · have hr0 : r ≠ [] := by rw [← hrdec]; simp
      obtain ⟨f, hf, hpre, hlenlt⟩ := hpart.resolve_left hr0
      obtain ⟨hftag, hftag256, hfplen⟩ := hf
      obtain ⟨tl, htl⟩ := hpre
      rw [← hrdec] at htl hlenlt
      rw [show f.bytes = f.tag :: (int32BEBytes (f.payload.length + 4)
        ++ f.payload) by simp [Frame.bytes]] at htl
      simp only [List.cons_append] at htl
      injection htl with h1 h2
      have hslen4 : 4 ≤ s.stream.length := by
        rw [← hwf.len_eq]
        omega
      have h4 : s.stream.take 4
          = int32BEBytes (f.payload.length + 4) := by
        have hcg := congrArg (fun l => List.take 4 l) h2
        simp only at hcg
        rw [List.take_append_of_le_length (by omega)] at hcg
        rw [take_append_full _ _ 4 (by simp [int32BEBytes])] at hcg
        exact hcg
      have hu : s.stream = int32BEBytes (f.payload.length + 4)
          ++ s.stream.drop 4 := by
        rw [← h4, List.take_append_drop]
      have hulen : (s.stream.drop 4).length < f.payload.length := by
        have hb := Frame.bytes_length f
        simp at hlenlt
        rw [List.length_drop]
        omega
      obtain ⟨s2, heq2, hwf2, ht2, hl2, hu2, hr2b, hst2, hlen2⟩ :=
        takeMessageReadLenPatched_stop s f.payload.length (s.stream.drop 4) hwf
          hc3 hc5 hfplen hu hulen
      refine ⟨s2, Hdr.hdrRead tg f.payload.length, heq2, hwf2,
        ⟨by rw [ht2, hc1], hc2, hl2, hu2, hr2b, hfplen⟩,
        by show s2.len < f.payload.length
           rw [hlen2]
           exact hulen,
        ?_⟩
      simp only [Hdr.pendingBytes, List.cons_append]
      rw [hst2, ← hu, hrdec]
  | hdrRead tg plen =>
    obtain ⟨hc1, hc2, hc3, hc4, hc5, hc6⟩ := hcur
    have hrdec : tg :: (int32BEBytes (plen + 4) ++ s.stream) = r := by
      have hb := hdec
      simp only [Hdr.pendingBytes, List.cons_append] at hb
      exact hb
    have hr0 : r ≠ [] := by rw [← hrdec]; simp
    obtain ⟨f, hf, hpre, hlenlt⟩ := hpart.resolve_left hr0
    obtain ⟨hftag, hftag256, hfplen⟩ := hf
    obtain ⟨tl, htl⟩ := hpre
    rw [← hrdec] at htl hlenlt
    rw [show f.bytes = f.tag :: (int32BEBytes (f.payload.length + 4)
      ++ f.payload) by simp [Frame.bytes]] at htl
    simp only [List.cons_append, List.append_assoc] at htl
    injection htl with h1 h2
    obtain ⟨h4, h5⟩ := List.append_inj h2 (by simp [int32BEBytes])
    have hpe : plen = f.payload.length := by
      have := int32BEBytes_inj (plen + 4) (f.payload.length + 4)
        (by omega) (by omega) h4
      omega
    have hslt : s.len < plen := by
      have hb := Frame.bytes_length f
      simp [int32BEBytes] at hlenlt
      rw [hwf.len_eq]
      omega
    refine ⟨s, Hdr.hdrRead tg plen, ?_, hwf,
      ⟨hc1, hc2, hc3, hc4, hc5, hc6⟩, hslt, hdec⟩
    rw [takeMessagePatched_enter s hc5 (by rw [hc1]; exact hc2)]
    unfold ReadMessageBuffer.takeMessageReadLenPatched
    rw [if_neg (show ¬ s.curMessageLen = 0 by
      rw [hc3]; intro hx; omega)]
    unfold ReadMessageBuffer.takeMessageFinish
    rw [if_pos (show (s.len : Int) < s.curMessageLenUnread by
      rw [hc4]
      omega)]

/-- `consumeMessagePatched` after a successful `takeMessagePatched`: it returns exactly
the payload recorded by the cursor and resets the cursor. -/
theorem consumeMessagePatched_ok (s : ReadMessageBuffer) (p t : List Nat)
    (hwf : s.WF) (hready : s.curMessageReady = true)
    (hunread : s.curMessageLenUnread = (p.length : Int))
    (hstream : s.stream = p ++ t) :
    ∃ s3 : ReadMessageBuffer,
      s.consumeMessagePatched = .ok p s3 ∧ s3.WF ∧ Hdr.clean.cursor s3 ∧
      s3.stream = t := by
  unfold ReadMessageBuffer.consumeMessagePatched
  rw [if_neg (show ¬ (s.curMessageReady = false) by rw [hready]; simp)]
  by_cases hp : p = []
  · subst hp
    rw [if_neg (show ¬ (0 < s.curMessageLenUnread) by
      rw [hunread]; simp)]
    refine ⟨ReadMessageBuffer.finishMsg s, rfl,
      ⟨hwf.len_eq, hwf.pos_le, hwf.len0_eq, hwf.bufs_ne, hwf.buf0_none⟩,
      ⟨rfl, rfl, rfl, rfl⟩, by simpa using hstream⟩
  · have hplen : 0 < p.length := List.length_pos.mpr hp
    rw [if_pos (show 0 < s.curMessageLenUnread by rw [hunread]; omega)]
    rw [hunread, show ((p.length : Int)).toNat = p.length by simp]
    obtain ⟨s', hrun, hstream', hlen', ht', hl', hu', hr', hwf'⟩ :=
      rawReadBufferPatched_ok s p.length hwf hplen (by rw [hstream]; simp)
    simp only [hrun]
    have htake : s.stream.take p.length = p := by
      rw [hstream, take_append_full p t _ rfl]
    have hst3 : s'.stream = t := by
      rw [hstream', hstream, List.drop_left]
    refine ⟨ReadMessageBuffer.finishMsg
      { s' with curMessageLenUnread := 0 }, ?_,
      ⟨hwf'.len_eq, hwf'.pos_le, hwf'.len0_eq, hwf'.bufs_ne,
        hwf'.buf0_none⟩,
      ⟨rfl, rfl, rfl, rfl⟩, hst3⟩
    rw [htake]

/-- The drain loop with enough fuel: it emits exactly the complete frames
heading the buffered bytes and leaves a partial-frame residue recorded in
the cursor. -/
theorem drainLoopPatched_spec (gs : List Frame) :
    ∀ (fuel : Nat) (s : ReadMessageBuffer) (H : Hdr)
      (acc : List (Nat × List Nat)) (r : List Nat),
    s.WF → H.cursor s → (∀ f ∈ gs, f.wellFormed) →
    H.pendingBytes ++ s.stream = framesBytes gs ++ r →
    (r = [] ∨ ∃ f : Frame, f.wellFormed ∧ prefixOf r f.bytes ∧
      r.length < f.bytes.length) →
    gs.length < fuel →
    ∃ (s2 : ReadMessageBuffer) (H2 : Hdr),
      drainLoopPatched fuel s acc = .ok (acc ++ gs.map Frame.logical) s2 ∧
      s2.WF ∧ H2.cursor s2 ∧ H2.stopped s2 ∧
      H2.pendingBytes ++ s2.stream = r := by
  induction gs with
  | nil =>
    intro fuel s H acc r hwf hcur hgswf hdec hpart hfuel
    cases fuel with
    | zero => omega
    | succ fuel =>
      obtain ⟨s2, H2, hstep, hwf2, hcur2, hstop2, hdec2⟩ :=
        takeMessagePatched_stop H s r hwf hcur
          (by simpa [framesBytes] using hdec) hpart
      refine ⟨s2, H2, ?_, hwf2, hcur2, hstop2, hdec2⟩
      simp only [drainLoopPatched, hstep]
      simp
  | cons f gs ih =>
    intro fuel s H acc r hwf hcur hgswf hdec hpart hfuel
    cases fuel with
    | zero => omega
    | succ fuel =>
      have hfwf : f.wellFormed := hgswf f (List.mem_cons_self f gs)
      have hdecf : H.pendingBytes ++ s.stream
          = f.bytes ++ (framesBytes gs ++ r) := by
        rw [hdec, framesBytes_cons, List.append_assoc]
      obtain ⟨s2, htm, hwf2, hready2, htype2, hunread2, hstream2⟩ :=
        takeMessagePatched_complete H s f _ hwf hcur hfwf hdecf
      obtain ⟨s3, hcm, hwf3, hcur3, hstream3⟩ :=
        consumeMessagePatched_ok s2 f.payload _ hwf2 hready2 hunread2 hstream2
      obtain ⟨s4, H4, hrun, hwf4, hcur4, hstop4, hdec4⟩ :=
        ih fuel s3 Hdr.clean (acc ++ [(f.tag, f.payload)]) r hwf3 hcur3
          (fun g hg => hgswf g (List.mem_cons_of_mem f hg))
          (by simpa [Hdr.pendingBytes] using hstream3)
          hpart (by simp at hfuel; omega)
      refine ⟨s4, H4, ?_, hwf4, hcur4, hstop4, hdec4⟩
      simp only [drainLoopPatched, htm, hcm]
      rw [show s2.getMessageType = f.tag from htype2, hrun]
      simp [Frame.logical]

/-- Any prefix `X` of a frame stream splits into whole frames followed by
a proper prefix of the next frame. -/
theorem split_frames (rest : List Frame) :
    ∀ (X Y : List Nat), X ++ Y = framesBytes rest →
    ∃ (gs1 gs2 : List Frame) (r : List Nat), rest = gs1 ++ gs2 ∧
      X = framesBytes gs1 ++ r ∧ r ++ Y = framesBytes gs2 ∧
      (r = [] ∨ ∃ f gs2x, gs2 = f :: gs2x ∧ prefixOf r f.bytes ∧
        r.length < f.bytes.length) := by
  induction rest with
  | nil =>
    intro X Y h
    obtain ⟨hX, hY⟩ := List.append_eq_nil.mp
      (by simpa [framesBytes] using h)
    exact ⟨[], [], [], rfl, by simp [framesBytes, hX],
      by simp [framesBytes, hY], Or.inl rfl⟩
  | cons f rest ih =>
    intro X Y h
    rw [framesBytes_cons] at h
    by_cases hX : f.bytes.length ≤ X.length
    · have htake : X.take f.bytes.length = f.bytes := by
        have hcg := congrArg (fun l => List.take f.bytes.length l) h
        simp only at hcg
        rw [List.take_append_of_le_length hX] at hcg
        rw [take_append_full _ _ _ rfl] at hcg
        exact hcg
      have hXsplit : X = f.bytes ++ X.drop f.bytes.length := by
        conv_lhs => rw [← List.take_append_drop f.bytes.length X]
        rw [htake]
      have h2 : X.drop f.bytes.length ++ Y = framesBytes rest := by
        have h3 : f.bytes ++ (X.drop f.bytes.length ++ Y)
            = f.bytes ++ framesBytes rest := by
          rw [← List.append_assoc, ← hXsplit, h]
        exact List.append_cancel_left h3
      obtain ⟨gs1, gs2, r, hrest, hXd, hr, hprop⟩ :=
        ih (X.drop f.bytes.length) Y h2
      refine ⟨f :: gs1, gs2, r, by rw [hrest]; rfl, ?_, hr, hprop⟩
      rw [framesBytes_cons, List.append_assoc, ← hXd]
      exact hXsplit
    · push_neg at hX
      have hXpre : X = f.bytes.take X.length := by
        have hcg := congrArg (fun l => List.take X.length l) h
        simp only at hcg
        rw [List.take_left] at hcg
        rw [List.take_append_of_le_length (by omega)] at hcg
        exact hcg
      refine ⟨[], f :: rest, X, rfl, by simp [framesBytes],
        by rw [framesBytes_cons]; exact h, ?_⟩
      right
      refine ⟨f, rest, rfl, ⟨f.bytes.drop X.length, ?_⟩, hX⟩
      nth_rewrite 1 [hXpre]
      rw [List.take_append_drop]

/-- Feeding chunks that exactly cover a frame stream emits all of its
frames: the feed/drain cycle preserves the header invariant across
chunk boundaries. -/
theorem processFeedsPatched_spec (chunks : List (List Nat)) :
    ∀ (s : ReadMessageBuffer) (H : Hdr) (acc : List (Nat × List Nat))
      (rest : List Frame),
    s.WF → H.cursor s → H.stopped s → (∀ f ∈ rest, f.wellFormed) →
    (∀ c ∈ chunks, c ≠ []) →
    (H.pendingBytes ++ s.stream) ++ chunks.flatten = framesBytes rest →
    processFeedsPatched chunks s acc = .ok (acc ++ rest.map Frame.logical) := by
  induction chunks with
  | nil =>
    intro s H acc rest hwf hcur hstop hrwf hchne hdec
    rw [show (([] : List (List Nat)).flatten) = [] from rfl,
      List.append_nil] at hdec
    have hrest : rest = [] := by
      cases rest with
      | nil => rfl
      | cons f rest2 =>
        exfalso
        obtain ⟨hftag, hftag256, hfplen⟩ :=
          hrwf f (List.mem_cons_self f rest2)
        have hlenge : 5 + f.payload.length
            ≤ (framesBytes (f :: rest2)).length := by
          rw [framesBytes_cons]
          simp [Frame.bytes_length]
        cases H with
        | clean =>
          have hs0 : s.stream.length = 0 := by
            rw [← hwf.len_eq]
            exact hstop
          have hl := congrArg List.length hdec
          simp [Hdr.pendingBytes] at hl
          omega
        | tagRead t =>
          have hl := congrArg List.length hdec
          simp [Hdr.pendingBytes] at hl
          have hsl := hwf.len_eq
          have hst : s.len < 4 := hstop
          omega
        | hdrRead t plen =>
          obtain ⟨hc1, hc2, hc3, hc4, hc5, hc6⟩ := hcur
          have hdec2 : t :: (int32BEBytes (plen + 4) ++ s.stream)
              = f.tag :: (int32BEBytes (f.payload.length + 4)
                ++ (f.payload ++ framesBytes rest2)) := by
            have hb := hdec
            simp only [Hdr.pendingBytes, List.cons_append] at hb
            rw [hb, framesBytes_cons]
            simp [Frame.bytes]
          injection hdec2 with h1 h2
          obtain ⟨h4, h5⟩ := List.append_inj h2 (by simp [int32BEBytes])
          have hpe : plen = f.payload.length := by
            have := int32BEBytes_inj (plen + 4) (f.payload.length + 4)
              (by omega) (by omega) h4
            omega
          have h5len := congrArg List.length h5
          simp at h5len
          have hsl := hwf.len_eq
          have hst : s.len < plen := hstop
          omega
    subst hrest
    simp [processFeedsPatched]
  | cons c cs ih =>
    intro s H acc rest hwf hcur hstop hrwf hchne hdec
    have hcne : c ≠ [] := hchne c (List.mem_cons_self c cs)
    obtain ⟨hfs, hfl, hft, hfml, hfu, hfr, hfwf⟩ := feed_spec s c hwf hcne
    have hcur1 : H.cursor (s.feed c).2 :=
      Hdr.cursor_of_fields H s (s.feed c).2 hcur hft hfml hfu hfr
    have hXY : ((H.pendingBytes ++ s.stream) ++ c) ++ cs.flatten
        = framesBytes rest := by
      rw [List.append_assoc]
      rw [show c ++ cs.flatten = (c :: cs).flatten from rfl]
      exact hdec
    obtain ⟨gs1, gs2, r, hrest, hX, hr, hprop⟩ :=
      split_frames rest ((H.pendingBytes ++ s.stream) ++ c) cs.flatten hXY
    have hdec1 : H.pendingBytes ++ (s.feed c).2.stream
        = framesBytes gs1 ++ r := by
      rw [hfs, ← List.append_assoc]
      exact hX
    have hpart : r = [] ∨ ∃ f : Frame, f.wellFormed ∧ prefixOf r f.bytes ∧
        r.length < f.bytes.length := by
      rcases hprop with hp | ⟨f, gs2x, hgs2, hpre, hlen⟩
      · exact Or.inl hp
      · refine Or.inr ⟨f, hrwf f ?_, hpre, hlen⟩
        rw [hrest, hgs2]
        exact List.mem_append.mpr (Or.inr (List.mem_cons_self f gs2x))
    have hfuel : gs1.length < (s.feed c).2.len + 2 := by
      have hl1 := congrArg List.length hdec1
      simp at hl1
      have h5g := framesBytes_length_ge gs1
      have hpb := pendingBytes_length_le H
      have hwl := hfwf.len_eq
      omega
    obtain ⟨s2, H2, hdrain, hwf2, hcur2, hstop2, hdec2⟩ :=
      drainLoopPatched_spec gs1 ((s.feed c).2.len + 2) (s.feed c).2 H acc r
        hfwf hcur1
        (fun g hg => hrwf g (by rw [hrest]
                                exact List.mem_append.mpr (Or.inl hg)))
        hdec1 hpart hfuel
    have hrec := ih s2 H2 (acc ++ gs1.map Frame.logical) gs2 hwf2 hcur2
      hstop2
      (fun g hg => hrwf g (by rw [hrest]
                              exact List.mem_append.mpr (Or.inr hg)))
      (fun d hd => hchne d (List.mem_cons_of_mem c hd))
      (by rw [hdec2]; exact hr)
    simp only [processFeedsPatched]
    rw [hdrain]
    show processFeedsPatched cs s2 (acc ++ List.map Frame.logical gs1)
      = Except.ok (acc ++ List.map Frame.logical rest)
    rw [hrec, hrest]
    simp

/-- Feeding chunks that exactly cover a frame stream into a fresh buffer
yields the logical frames of the stream. -/
theorem processChunksPatched_frames (chunks : List (List Nat)) (fs : List Frame)
    (hwf : ∀ f ∈ fs, f.wellFormed) (hne : ∀ c ∈ chunks, c ≠ [])
    (hbytes : chunks.flatten = framesBytes fs) :
    processChunksPatched chunks = .ok (fs.map Frame.logical) := by
  have h := processFeedsPatched_spec chunks ReadMessageBuffer.new Hdr.clean [] fs
    ⟨rfl, le_refl _, rfl, by simp [ReadMessageBuffer.new], fun _ => rfl⟩
    ⟨rfl, rfl, rfl, rfl⟩ rfl hwf hne
    (by simpa [ReadMessageBuffer.stream, ReadMessageBuffer.new,
      Hdr.pendingBytes] using hbytes)
  simpa [processChunksPatched] using h

/-- Last stage of the frame-assembly scenario: feed the final five bytes,
take the message and consume it. -/
def scenarioStep4 (bytes : List Nat) (b1 b2 b3 : Bool)
    (s : ReadMessageBuffer) :
    Except String (Bool × Bool × Bool × Bool × List Nat) :=
  match ((s.feed (bytes.drop 10)).2).takeMessage with
  | .err e _ => .error e
  | .ok b4 s4 =>
    match s4.consumeMessage with
    | .err e _ => .error e
    | .ok p _ => .ok (b1, b2, b3, b4, p)

/-- Third stage of the scenario: feed the seven-byte chunk and take the
message. -/
def scenarioStep3 (bytes : List Nat) (b1 b2 : Bool)
    (s : ReadMessageBuffer) :
    Except String (Bool × Bool × Bool × Bool × List Nat) :=
  match ((s.feed ((bytes.drop 3).take 7)).2).takeMessage with
  | .err e _ => .error e
  | .ok b3 s3 => scenarioStep4 bytes b1 b2 b3 s3

/-- Second stage of the scenario: feed the two-byte chunk and take the
message. -/
def scenarioStep2 (bytes : List Nat) (b1 : Bool)
    (s : ReadMessageBuffer) :
    Except String (Bool × Bool × Bool × Bool × List Nat) :=
  match ((s.feed ((bytes.drop 1).take 2)).2).takeMessage with
  | .err e _ => .error e
  | .ok b2 s2 => scenarioStep3 bytes b1 b2 s2

/-- The frame-assembly scenario of the spec: a tag `0x50` frame with a
ten-byte payload, fed as chunks of sizes 1, 2, 7 and 5, with a
`takeMessage` after each feed and a final `consumeMessage`. -/
def frameAssemblyScenario (payload : List Nat) :
    Except String (Bool × Bool × Bool × Bool × List Nat) :=
  let bytes := Frame.bytes ⟨0x50, payload⟩
  match ((ReadMessageBuffer.new.feed (bytes.take 1)).2).takeMessage with
  | .err e _ => .error e
  | .ok b1 s1 => scenarioStep2 bytes b1 s1

/-- Last stage of the scenario on the patched pipeline. -/
def scenarioStep4Patched (bytes : List Nat) (b1 b2 b3 : Bool)
    (s : ReadMessageBuffer) :
    Except String (Bool × Bool × Bool × Bool × List Nat) :=
  match ((s.feed (bytes.drop 10)).2).takeMessagePatched with
  | .err e _ => .error e
  | .ok b4 s4 =>
    match s4.consumeMessagePatched with
    | .err e _ => .error e
    | .ok p _ => .ok (b1, b2, b3, b4, p)

/-- Third stage of the scenario on the patched pipeline. -/
def scenarioStep3Patched (bytes : List Nat) (b1 b2 : Bool)
    (s : ReadMessageBuffer) :
    Except String (Bool × Bool × Bool × Bool × List Nat) :=
  match ((s.feed ((bytes.drop 3).take 7)).2).takeMessagePatched with
  | .err e _ => .error e
  | .ok b3 s3 => scenarioStep4Patched bytes b1 b2 b3 s3

/-- Second stage of the scenario on the patched pipeline. -/
def scenarioStep2Patched (bytes : List Nat) (b1 : Bool)
    (s : ReadMessageBuffer) :
    Except String (Bool × Bool × Bool × Bool × List Nat) :=
  match ((s.feed ((bytes.drop 1).take 2)).2).takeMessagePatched with
  | .err e _ => .error e
  | .ok b2 s2 => scenarioStep3Patched bytes b1 b2 s2

/-- The frame-assembly scenario run on the patched pipeline. -/
def frameAssemblyScenarioPatched (payload : List Nat) :
    Except String (Bool × Bool × Bool × Bool × List Nat) :=
  let bytes := Frame.bytes ⟨0x50, payload⟩
  match ((ReadMessageBuffer.new.feed (bytes.take 1)).2).takeMessagePatched with
  | .err e _ => .error e
  | .ok b1 s1 => scenarioStep2Patched bytes b1 s1

set_option maxHeartbeats 1000000 in
set_option maxRecDepth 4000 in
/-- Claim C1: the claimed chunk-splitting invariance — and its 1/2/7/5
scenario — hold for the pipeline with the `Buffer.copy` argument
corrected (conjuncts 1 to 3: any nonempty-chunk splitting of a
well-formed frame stream yields exactly its logical frames, the same as
feeding it whole, and the scenario gives `takeMessage` false, false,
false, true then the ten payload bytes), but fail in the code as
written: `__readBufferCopy` passes byte counts as `sourceEnd`, so the
claim's own scenario returns `[1,2,3,0,0,6,7,8,9,10]` instead of the
payload `[1..10]`, and the same fifteen wire bytes produce different
frames fed chunked and fed whole (conjuncts 4 to 8). -/
theorem frame_assembly_copy_divergence :
    (∀ (chunks : List (List Nat)) (fs : List Frame),
      (∀ f ∈ fs, f.wellFormed) → (∀ c ∈ chunks, c ≠ []) →
      chunks.flatten = framesBytes fs →
      processChunksPatched chunks = .ok (fs.map Frame.logical)) ∧
    (∀ fs : List Frame, (∀ f ∈ fs, f.wellFormed) → fs ≠ [] →
      processChunksPatched [framesBytes fs] = .ok (fs.map Frame.logical)) ∧
    (∀ p0 p1 p2 p3 p4 p5 p6 p7 p8 p9 : Nat,
      frameAssemblyScenarioPatched [p0, p1, p2, p3, p4, p5, p6, p7, p8, p9]
        = .ok (false, false, false, true,
            [p0, p1, p2, p3, p4, p5, p6, p7, p8, p9])) ∧
    frameAssemblyScenario [1, 2, 3, 4, 5, 6, 7, 8, 9, 10]
      = .ok (false, false, false, true,
          [1, 2, 3, 0, 0, 6, 7, 8, 9, 10]) ∧
    processChunks [[80], [0, 0], [0, 14, 1, 2, 3, 4, 5], [6, 7, 8, 9, 10]]
      = .ok [(80, [1, 2, 3, 0, 0, 6, 7, 8, 9, 10])] ∧
    processChunks [[80, 0, 0, 0, 14, 1, 2, 3, 4, 5, 6, 7, 8, 9, 10]]
      = .ok [(80, [1, 2, 3, 4, 5, 0, 0, 0, 0, 0])] ∧
    processChunks [[80], [0, 0], [0, 14, 1, 2, 3, 4, 5], [6, 7, 8, 9, 10]]
      ≠ processChunks [[80, 0, 0, 0, 14, 1, 2, 3, 4, 5, 6, 7, 8, 9, 10]] ∧
    [[80], [0, 0], [0, 14, 1, 2, 3, 4, 5], [6, 7, 8, 9, 10]].flatten
      = [[80, 0, 0, 0, 14, 1, 2, 3, 4, 5, 6, 7, 8, 9, 10]].flatten := by
  refine ⟨processChunksPatched_frames, ?_, ?_, by rfl, by rfl, by rfl,
    by decide, by rfl⟩
  · intro fs hwf hne
    refine processChunksPatched_frames [framesBytes fs] fs hwf ?_ (by simp)
    intro c hc hc0
    simp at hc
    subst hc
    cases fs with
    | nil => exact hne rfl
    | cons f fs2 =>
      have hl := congrArg List.length hc0
      rw [framesBytes_cons] at hl
      simp [Frame.bytes_length] at hl
  · intro p0 p1 p2 p3 p4 p5 p6 p7 p8 p9
    have hb : Frame.bytes ⟨0x50, [p0, p1, p2, p3, p4, p5, p6, p7, p8, p9]⟩
        = 80 :: ([0, 0, 0, 14]
          ++ [p0, p1, p2, p3, p4, p5, p6, p7, p8, p9]) := by
      simp [Frame.bytes, int32BEBytes]
    have hfr : (⟨80, [p0, p1, p2, p3, p4, p5, p6, p7, p8, p9]⟩ :
        Frame).wellFormed := by
      refine ⟨by norm_num, by norm_num, by simp⟩
    have hc1 : (Frame.bytes ⟨0x50,
        [p0, p1, p2, p3, p4, p5, p6, p7, p8, p9]⟩).take 1 = [80] := by
      rw [hb]
      rfl
    have hc2 : ((Frame.bytes ⟨0x50,
        [p0, p1, p2, p3, p4, p5, p6, p7, p8, p9]⟩).drop 1).take 2
        = [0, 0] := by
      rw [hb]
      rfl
    have hc3 : ((Frame.bytes ⟨0x50,
        [p0, p1, p2, p3, p4, p5, p6, p7, p8, p9]⟩).drop 3).take 7
        = [0, 14, p0, p1, p2, p3, p4] := by
      rw [hb]
      rfl
    have hc4 : (Frame.bytes ⟨0x50,
        [p0, p1, p2, p3, p4, p5, p6, p7, p8, p9]⟩).drop 10
        = [p5, p6, p7, p8, p9] := by
      rw [hb]
      rfl
    have hwf0 : ReadMessageBuffer.new.WF :=
      ⟨rfl, le_refl _, rfl, by simp [ReadMessageBuffer.new], fun _ => rfl⟩
    obtain ⟨hfs1, hfl1, hft1, hfml1, hfu1, hfr1, hfwf1⟩ :=
      feed_spec ReadMessageBuffer.new
        ((Frame.bytes ⟨0x50,
          [p0, p1, p2, p3, p4, p5, p6, p7, p8, p9]⟩).take 1)
        hwf0 (by rw [hc1]; simp)
    obtain ⟨s1, H1, hstep1, hwf1, hcur1, hstop1, hdec1⟩ :=
      takeMessagePatched_stop Hdr.clean _ [80] hfwf1
        (Hdr.cursor_of_fields Hdr.clean ReadMessageBuffer.new _
          ⟨rfl, rfl, rfl, rfl⟩ hft1 hfml1 hfu1 hfr1)
        (by rw [hfs1, hc1]; rfl)
        (Or.inr ⟨⟨80, [p0, p1, p2, p3, p4, p5, p6, p7, p8, p9]⟩, hfr,
          ⟨[0, 0, 0, 14] ++ [p0, p1, p2, p3, p4, p5, p6, p7, p8, p9],
            by rw [hb]; rfl⟩,
          by rw [hb]; simp⟩)
    show (match ((ReadMessageBuffer.new.feed ((Frame.bytes ⟨0x50,
        [p0, p1, p2, p3, p4, p5, p6, p7, p8, p9]⟩).take 1)).2
        ).takeMessagePatched with
      | .err e _ => (.error e : Except String
          (Bool × Bool × Bool × Bool × List Nat))
      | .ok b1 s1 => scenarioStep2Patched (Frame.bytes ⟨0x50,
          [p0, p1, p2, p3, p4, p5, p6, p7, p8, p9]⟩) b1 s1)
      = .ok (false, false, false, true,
          [p0, p1, p2, p3, p4, p5, p6, p7, p8, p9])
    rw [hstep1]
    show scenarioStep2Patched (Frame.bytes ⟨0x50,
        [p0, p1, p2, p3, p4, p5, p6, p7, p8, p9]⟩) false s1
      = .ok (false, false, false, true,
          [p0, p1, p2, p3, p4, p5, p6, p7, p8, p9])
    obtain ⟨hfs2, hfl2, hft2, hfml2, hfu2, hfr2, hfwf2⟩ :=
      feed_spec s1
        (((Frame.bytes ⟨0x50,
          [p0, p1, p2, p3, p4, p5, p6, p7, p8, p9]⟩).drop 1).take 2)
        hwf1 (by rw [hc2]; simp)
    obtain ⟨s2, H2, hstep2, hwf2, hcur2, hstop2, hdec2⟩ :=
      takeMessagePatched_stop H1 _ [80, 0, 0] hfwf2
        (Hdr.cursor_of_fields H1 s1 _ hcur1 hft2 hfml2 hfu2 hfr2)
        (by rw [hfs2, hc2, ← List.append_assoc, hdec1]; rfl)
        (Or.inr ⟨⟨80, [p0, p1, p2, p3, p4, p5, p6, p7, p8, p9]⟩, hfr,
          ⟨[0, 14] ++ [p0, p1, p2, p3, p4, p5, p6, p7, p8, p9],
            by rw [hb]; rfl⟩,
          by rw [hb]; simp⟩)
    show (match ((s1.feed (((Frame.bytes ⟨0x50,
        [p0, p1, p2, p3, p4, p5, p6, p7, p8, p9]⟩).drop 1).take 2)).2
        ).takeMessagePatched with
      | .err e _ => (.error e : Except String
          (Bool × Bool × Bool × Bool × List Nat))
      | .ok b2 s2 => scenarioStep3Patched (Frame.bytes ⟨0x50,
          [p0, p1, p2, p3, p4, p5, p6, p7, p8, p9]⟩) false b2 s2)
      = .ok (false, false, false, true,
          [p0, p1, p2, p3, p4, p5, p6, p7, p8, p9])
    rw [hstep2]
    show scenarioStep3Patched (Frame.bytes ⟨0x50,
        [p0, p1, p2, p3, p4, p5, p6, p7, p8, p9]⟩) false false s2
      = .ok (false, false, false, true,
          [p0, p1, p2, p3, p4, p5, p6, p7, p8, p9])
    obtain ⟨hfs3, hfl3, hft3, hfml3, hfu3, hfr3, hfwf3⟩ :=
      feed_spec s2
        (((Frame.bytes ⟨0x50,
          [p0, p1, p2, p3, p4, p5, p6, p7, p8, p9]⟩).drop 3).take 7)
        hwf2 (by rw [hc3]; simp)
    obtain ⟨s3, H3, hstep3, hwf3, hcur3, hstop3, hdec3⟩ :=
      takeMessagePatched_stop H2 _
        [80, 0, 0, 0, 14, p0, p1, p2, p3, p4] hfwf3
        (Hdr.cursor_of_fields H2 s2 _ hcur2 hft3 hfml3 hfu3 hfr3)
        (by rw [hfs3, hc3, ← List.append_assoc, hdec2]; rfl)
        (Or.inr ⟨⟨80, [p0, p1, p2, p3, p4, p5, p6, p7, p8, p9]⟩, hfr,
          ⟨[p5, p6, p7, p8, p9], by rw [hb]; rfl⟩,
          by rw [hb]; simp⟩)
    show (match ((s2.feed (((Frame.bytes ⟨0x50,
        [p0, p1, p2, p3, p4, p5, p6, p7, p8, p9]⟩).drop 3).take 7)).2
        ).takeMessagePatched with
      | .err e _ => (.error e : Except String
          (Bool × Bool × Bool × Bool × List Nat))
      | .ok b3 s3 => scenarioStep4Patched (Frame.bytes ⟨0x50,
          [p0, p1, p2, p3, p4, p5, p6, p7, p8, p9]⟩) false false b3 s3)
      = .ok (false, false, false, true,
          [p0, p1, p2, p3, p4, p5, p6, p7, p8, p9])
    rw [hstep3]
    show scenarioStep4Patched (Frame.bytes ⟨0x50,
        [p0, p1, p2, p3, p4, p5, p6, p7, p8, p9]⟩) false false false s3
      = .ok (false, false, false, true,
          [p0, p1, p2, p3, p4, p5, p6, p7, p8, p9])
    obtain ⟨hfs4, hfl4, hft4, hfml4, hfu4, hfr4, hfwf4⟩ :=
      feed_spec s3
        ((Frame.bytes ⟨0x50,
          [p0, p1, p2, p3, p4, p5, p6, p7, p8, p9]⟩).drop 10)
        hwf3 (by rw [hc4]; simp)
    obtain ⟨s4, hstep4, hwf4, hready4, htype4, hunread4, hstream4⟩ :=
      takeMessagePatched_complete H3 _
        ⟨80, [p0, p1, p2, p3, p4, p5, p6, p7, p8, p9]⟩ [] hfwf4
        (Hdr.cursor_of_fields H3 s3 _ hcur3 hft4 hfml4 hfu4 hfr4) hfr
        (by rw [hfs4, hc4, ← List.append_assoc, hdec3, hb]; rfl)
    show (match ((s3.feed ((Frame.bytes ⟨0x50,
        [p0, p1, p2, p3, p4, p5, p6, p7, p8, p9]⟩).drop 10)).2
        ).takeMessagePatched with
      | .err e _ => (.error e : Except String
          (Bool × Bool × Bool × Bool × List Nat))
      | .ok b4 s4 =>
        match s4.consumeMessagePatched with
        | .err e _ => .error e
        | .ok p _ => .ok (false, false, false, b4, p))
      = .ok (false, false, false, true,
          [p0, p1, p2, p3, p4, p5, p6, p7, p8, p9])
    rw [hstep4]
    obtain ⟨s5, hstep5, hwf5, hcur5, hstream5⟩ :=
      consumeMessagePatched_ok s4 [p0, p1, p2, p3, p4, p5, p6, p7, p8, p9] []
        hwf4 hready4 hunread4 hstream4
    show (match s4.consumeMessagePatched with
      | .err e _ => (.error e : Except String
          (Bool × Bool × Bool × Bool × List Nat))
      | .ok p _ => .ok (false, false, false, true, p))
      = .ok (false, false, false, true,
          [p0, p1, p2, p3, p4, p5, p6, p7, p8, p9])
    rw [hstep5]

/-- Witness: the patched invariance at a concrete chunking of one
frame. -/
theorem frame_assembly_copy_divergence_witness :
    processChunksPatched
      [[80], [0, 0], [0, 14, 1, 2, 3, 4, 5], [6, 7, 8, 9, 10]]
      = .ok [(80, [1, 2, 3, 4, 5, 6, 7, 8, 9, 10])] :=
  frame_assembly_copy_divergence.1
    [[80], [0, 0], [0, 14, 1, 2, 3, 4, 5], [6, 7, 8, 9, 10]]
    [⟨80, [1, 2, 3, 4, 5, 6, 7, 8, 9, 10]⟩]
    (by decide) (by decide) (by decide)
